import Mathlib

/-!
Verification development for the Archon embedding/LLM request pipeline.

Shallow embedding of:
- `python/src/server/services/embeddings/embedding_service.py`
  (`EmbeddingBatchResult`, `_process_embeddings_with_client`,
   `create_embeddings_batch`, `create_embedding`)
- `python/src/server/services/provider_manager.py`
  (`ProviderManager.get_service_config`, `ProviderManager.get_client`)

The provider client is modelled as a function from (batch index, attempt
number) to a response; the run additionally returns a trace of the requests
issued and the retry sleeps performed, so that short-circuiting and backoff
behaviour can be stated.  Machine floats in embedding vectors are modelled
as lists of integers (the pipeline never inspects vector contents), and the
temperature field of a model-config row is carried as an opaque string.
-/

/-- Embedding vectors are opaque payloads for the pipeline; modelled as
integer lists. -/
abbrev Vec := List Int

/-- Python substring test on character lists: `needle in haystack`. -/
def subListOf : List Char → List Char → Bool
  | n, [] => n.isEmpty
  | n, c :: t => n.isPrefixOf (c :: t) || subListOf n t

/-- Python `needle in haystack` on strings. -/
def containsSub (needle haystack : String) : Bool :=
  subListOf needle.data haystack.data

/-- Python `s.lower()` (the messages involved are ASCII). -/
def pyLower (s : String) : String :=
  ⟨s.data.map Char.toLower⟩

/-- Python `s[:n]`. -/
def pyTake (s : String) (n : Nat) : String :=
  ⟨s.data.take n⟩

/-- The quota-exhaustion marker test from `_process_embeddings_with_client`:
`"insufficient_quota" in error_message`. -/
def hasInsufficientQuota (msg : String) : Bool :=
  containsSub "insufficient_quota" msg

/-- Modelled from the spec: the repository imports `EmbeddingError`,
`EmbeddingAPIError`, `EmbeddingQuotaExhaustedError` and
`EmbeddingRateLimitError` from `embeddings/embedding_exceptions.py`, which is
not part of the sources available here.  Following the spec error taxonomy,
each kind carries the message used for `str(error)`; the classes form their
own hierarchy (none of them is a provider SDK exception class). -/
inductive EmbError where
  | quotaExhausted (msg : String)
  | rateLimited (msg : String)
  | apiError (msg : String)
deriving Repr, DecidableEq

/-- Python `type(error).__name__` for the modelled exception classes. -/
def EmbError.typeName : EmbError → String
  | .quotaExhausted _ => "EmbeddingQuotaExhaustedError"
  | .rateLimited _ => "EmbeddingRateLimitError"
  | .apiError _ => "EmbeddingAPIError"

/-- Python `str(error)` for the modelled exception classes. -/
def EmbError.message : EmbError → String
  | .quotaExhausted m => m
  | .rateLimited m => m
  | .apiError m => m

/-- One entry of `EmbeddingBatchResult.failed_items`, as built by
`EmbeddingBatchResult.add_failure`: text preview (`text[:200] if text else
None`), `str(error)`, `type(error).__name__`, and the batch index. -/
structure FailedItem where
  textPreview : Option String
  error : String
  errorType : String
  batchIndex : Option Nat
deriving Repr, DecidableEq

/-- The dictionary appended by `add_failure` for a given text and error. -/
def mkFailedItem (text : String) (e : EmbError) (batchIndex : Option Nat) :
    FailedItem :=
  { textPreview := if text = "" then none else some (pyTake text 200)
    error := e.message
    errorType := e.typeName
    batchIndex := batchIndex }

/-- The `EmbeddingBatchResult` dataclass. -/
structure EmbeddingBatchResult where
  embeddings : List Vec := []
  failed_items : List FailedItem := []
  success_count : Nat := 0
  failure_count : Nat := 0
  texts_processed : List String := []
deriving Repr, DecidableEq

namespace EmbeddingBatchResult

/-- `EmbeddingBatchResult.add_success`. -/
def add_success (r : EmbeddingBatchResult) (embedding : Vec) (text : String) :
    EmbeddingBatchResult :=
  { r with
    embeddings := r.embeddings ++ [embedding]
    texts_processed := r.texts_processed ++ [text]
    success_count := r.success_count + 1 }

/-- `EmbeddingBatchResult.add_failure`. -/
def add_failure (r : EmbeddingBatchResult) (text : String) (e : EmbError)
    (batchIndex : Option Nat) : EmbeddingBatchResult :=
  { r with
    failed_items := r.failed_items ++ [mkFailedItem text e batchIndex]
    failure_count := r.failure_count + 1 }

/-- `EmbeddingBatchResult.has_failures`. -/
def has_failures (r : EmbeddingBatchResult) : Bool :=
  decide (0 < r.failure_count)

/-- `EmbeddingBatchResult.total_requested`. -/
def total_requested (r : EmbeddingBatchResult) : Nat :=
  r.success_count + r.failure_count

end EmbeddingBatchResult

/-- Outcome of one `client.embeddings.create` call: a successful response
carrying `response.data` vectors, an `openai.RateLimitError` with message
`str(e)`, or any other exception with message `str(e)`. -/
inductive ApiResponse where
  | success (data : List Vec)
  | rateLimitError (msg : String)
  | otherError (msg : String)
deriving Repr, DecidableEq

/-- Whether a response is a rate-limit error signalling quota exhaustion. -/
def ApiResponse.isQuota : ApiResponse → Bool
  | .rateLimitError m => hasInsufficientQuota m
  | _ => false

/-- Whether a response is a rate-limit error that is not quota exhaustion. -/
def ApiResponse.isPlainRateLimit : ApiResponse → Bool
  | .rateLimitError m => !hasInsufficientQuota m
  | _ => false

/-- Observable step of a run: an embedding request for a batch (with the
attempt number and the batch input), or a retry sleep of a number of
seconds. -/
inductive Event where
  | request (batchIndex : Nat) (attempt : Nat) (input : List String)
  | sleep (seconds : Nat)
deriving Repr, DecidableEq

/-- Whether an event is an embedding request. -/
def Event.isRequest : Event → Bool
  | .request _ _ _ => true
  | .sleep _ => false

/-- Requests in an event touch no batch beyond `k`. -/
def Event.batchLE (k : Nat) : Event → Prop
  | .request b _ _ => b ≤ k
  | .sleep _ => True

/-- `max_retries = 3` in `_process_embeddings_with_client`. -/
def maxRetries : Nat := 3

/-- Per-batch outcome of the retry loop of `_process_embeddings_with_client`:
a successful response (the order-preserving `zip(batch, response.data,
strict=False)` pairs to record), the quota-exhaustion short-circuit, or a
batch-level failure wrapped by the outer `except` handler. -/
inductive BatchOutcome where
  | ok (pairs : List (String × Vec))
  | quota
  | failed (e : EmbError)
deriving Repr, DecidableEq

/-- The `while retry_count < max_retries` loop of
`_process_embeddings_with_client`, for one batch.  `retry` is the current
`retry_count` and `remaining` the value of `max_retries - retry_count`
(structural fuel; the `remaining = 0` case is the loop falling through with
no outcome, which is unreachable from `processBatch`).  On a rate-limit
error that is not quota exhaustion the batch is re-issued after a sleep of
`2 ^ retry_count` seconds (with the incremented count); once
`retry_count` reaches `max_retries` the exception propagates to the outer
handler, which wraps it as `EmbeddingAPIError("Failed to create embedding:
...")` because an `openai.RateLimitError` is not an `EmbeddingError`.
Any other exception is wrapped by the same handler without retry. -/
def processBatchGo (client : Nat → Nat → ApiResponse) (bIdx : Nat)
    (batch : List String) : Nat → Nat → BatchOutcome × List Event
  | _, 0 => (.ok [], [])
  | retry, remaining + 1 =>
    match client bIdx retry with
    | .success data => (.ok (batch.zip data), [.request bIdx retry batch])
    | .rateLimitError msg =>
      if hasInsufficientQuota msg then
        (.quota, [.request bIdx retry batch])
      else if retry + 1 < maxRetries then
        let rest := processBatchGo client bIdx batch (retry + 1) remaining
        (rest.1, .request bIdx retry batch :: .sleep (2 ^ (retry + 1)) :: rest.2)
      else
        (.failed (.apiError ("Failed to create embedding: " ++ msg)),
          [.request bIdx retry batch])
    | .otherError msg =>
      (.failed (.apiError ("Failed to create embedding: " ++ msg)),
        [.request bIdx retry batch])

/-- One batch of `_process_embeddings_with_client`, starting at
`retry_count = 0`. -/
def processBatch (client : Nat → Nat → ApiResponse) (bIdx : Nat)
    (batch : List String) : BatchOutcome × List Event :=
  processBatchGo client bIdx batch 0 maxRetries

/-- The `for i in range(0, len(texts), batch_size)` loop of
`_process_embeddings_with_client`.  `i` is the batch start offset and `fuel`
a structural bound on the remaining iterations (each iteration advances `i`
by `bs ≥ 1`, so `texts.length` iterations always suffice).  On success the
zip pairs are appended via `add_success`; on quota exhaustion every text
from the start of the current batch through the end of the whole input is
recorded via `add_failure` with `EmbeddingQuotaExhaustedError("Quota
exhausted")` and the run returns immediately; on any other batch failure
every text of the current batch is recorded and the run continues. -/
def processTexts (client : Nat → Nat → ApiResponse) (texts : List String)
    (bs : Nat) : Nat → Nat → EmbeddingBatchResult →
    EmbeddingBatchResult × List Event
  | 0, _, acc => (acc, [])
  | fuel + 1, i, acc =>
    if i < texts.length then
      let batch := (texts.drop i).take bs
      let bIdx := i / bs
      match processBatch client bIdx batch with
      | (.ok pairs, evs) =>
        let acc2 := pairs.foldl (fun r p => r.add_success p.2 p.1) acc
        let rest := processTexts client texts bs fuel (i + bs) acc2
        (rest.1, evs ++ rest.2)
      | (.quota, evs) =>
        ((texts.drop i).foldl
          (fun r t => r.add_failure t (.quotaExhausted "Quota exhausted")
            (some bIdx)) acc, evs)
      | (.failed e, evs) =>
        let acc2 := batch.foldl (fun r t => r.add_failure t e (some bIdx)) acc
        let rest := processTexts client texts bs fuel (i + bs) acc2
        (rest.1, evs ++ rest.2)
    else (acc, [])

/-- `_process_embeddings_with_client`: processes `texts` in batches of size
`bs` against `client`, folding outcomes into the caller-supplied result
`r0`, and returns the result together with the trace of requests and retry
sleeps. -/
def process_embeddings_with_client (client : Nat → Nat → ApiResponse)
    (texts : List String) (bs : Nat) (r0 : EmbeddingBatchResult) :
    EmbeddingBatchResult × List Event :=
  processTexts client texts bs texts.length 0 r0

/-- An element of the `texts` argument of `create_embeddings_batch` as seen
by the validation loop: either an actual `str`, or a non-string item whose
`str()` coercion yields the given string, or a non-string item whose
`str()` raises (`none`). -/
inductive PyItem where
  | str (s : String)
  | nonStr (coerced : Option String)
deriving Repr, DecidableEq

/-- What the validation loop of `create_embeddings_batch` appends for one
input item. -/
def coerceItem : PyItem → String
  | .str s => s
  | .nonStr (some s) => s
  | .nonStr none => ""

/-- The validation loop of `create_embeddings_batch` (lines building
`validated_texts`). -/
def validate_texts (items : List PyItem) : List String :=
  items.foldl (fun acc it => acc ++ [coerceItem it]) []

/-- `create_embeddings_batch` as invoked with a `ProviderManager` instance
supplied.  `setup` models acquiring a provider client: `.ok client` when
the `ProviderManager` path (or the old-system fallback after it fails)
yields a client together with model/dimension configuration, `.error msg`
when both paths fail with a configuration or credential error — in which
case the outer `except` handler records every not-yet-processed text (all
of them, the result still being empty) as failed with
`EmbeddingAPIError("Catastrophic failure: ...")` and returns the result
instead of raising.  `bs` is the configured `EMBEDDING_BATCH_SIZE`.
The default invocation without a manager is `create_embeddings_batch_default`. -/
def create_embeddings_batch (items : List PyItem)
    (setup : Except String (Nat → Nat → ApiResponse)) (bs : Nat) :
    EmbeddingBatchResult × List Event :=
  if items.isEmpty then ({}, [])
  else
    let texts := validate_texts items
    match setup with
    | .ok client => process_embeddings_with_client client texts bs {}
    | .error msg =>
      (texts.foldl
        (fun r t =>
          r.add_failure t (.apiError ("Catastrophic failure: " ++ msg)) none)
        {}, [])

/-- Result of `create_embedding`: the single vector, or the raised
exception. -/
inductive EmbedOutcome where
  | ok (v : Vec)
  | err (e : EmbError)
deriving Repr, DecidableEq

/-- `create_embeddings_batch` as `create_embedding` actually invokes it:
`create_embeddings_batch([text], provider=provider)` leaves the defaults
`use_new_provider_manager=True` and `provider_manager=None`.  The guard
`use_new_provider_manager and provider_manager is not None` is then false,
the flag is never cleared, so `if not use_new_provider_manager:` is false
as well: both client branches are skipped, the `try` body completes
without a `return`, and the function returns `None` — except for an empty
input list, which returns an empty `EmbeddingBatchResult` before the
client logic.  No request is ever issued. -/
def create_embeddings_batch_default (items : List PyItem) :
    Option (EmbeddingBatchResult × List Event) :=
  if items.isEmpty then some ({}, []) else none

/-- `str()` of the `AttributeError` raised by `result.embeddings` when
`result` is `None` (the quote characters of the Python repr are dropped
in the model). -/
def noneTypeAttributeError : String :=
  "NoneType object has no attribute embeddings"

/-- The unwrap logic in the `try` body of `create_embedding` (lines
207-227), applied to a non-`None` batch result: when the batch produced no
embedding, re-raise a specific error derived from the first recorded
failure (quota / rate / other, keyed on substrings of the recorded
message), and the generic "no embeddings returned" error only when there
is no recorded failure.  Raised `EmbeddingError`s pass through the
`except EmbeddingError: raise` clause unchanged. -/
def create_embedding_unwrap (_text : String) (result : EmbeddingBatchResult) :
    EmbedOutcome :=
  match result.embeddings with
  | v :: _ => .ok v
  | [] =>
    if 0 < result.failure_count then
      match result.failed_items with
      | info :: _ =>
        if containsSub "quota" (pyLower info.error) then
          .err (.quotaExhausted ("OpenAI quota exhausted: " ++ info.error))
        else if containsSub "rate" (pyLower info.error) then
          .err (.rateLimited ("Rate limit hit: " ++ info.error))
        else
          .err (.apiError ("Failed to create embedding: " ++ info.error))
      | [] => .err (.apiError "No embeddings returned from batch creation")
    else .err (.apiError "No embeddings returned from batch creation")

/-- `create_embedding`: calls
`create_embeddings_batch([text], provider=provider)` — without a
`ProviderManager` and without clearing `use_new_provider_manager` — and
unwraps the result.  When that call returns `None` (every non-empty
input, see `create_embeddings_batch_default`), `result.embeddings` raises
an `AttributeError`, which the `except Exception` handler classifies by
the `insufficient_quota` / `rate_limit` markers of `str(e)` (neither
matches) and converts to `EmbeddingAPIError("Embedding error: ...")`. -/
def create_embedding (text : String) : EmbedOutcome :=
  match create_embeddings_batch_default [.str text] with
  | some (result, _) => create_embedding_unwrap text result
  | none =>
    if hasInsufficientQuota noneTypeAttributeError then
      .err (.quotaExhausted
        ("OpenAI quota exhausted: " ++ noneTypeAttributeError))
    else if containsSub "rate_limit" (pyLower noneTypeAttributeError) then
      .err (.rateLimited ("Rate limit hit: " ++ noneTypeAttributeError))
    else
      .err (.apiError ("Embedding error: " ++ noneTypeAttributeError))

/-- A model-config row of the `model_config` table, as consumed by
`ProviderManager.get_service_config`: the `model_string`, plus
`temperature` and `max_tokens` (numeric values carried as opaque strings /
naturals; the resolver only passes them through). -/
structure ModelConfigRow where
  model_string : String
  temperature : Option String
  max_tokens : Option Nat
deriving Repr, DecidableEq

/-- The configuration dict built by `get_service_config`. -/
structure ServiceConfig where
  provider : String
  model : String
  temperature : String
  max_tokens : Option Nat
deriving Repr, DecidableEq

/-- The `model_string` parse of `get_service_config`:
`provider, model = model_string.split(chr(58), 1)` when the string contains
a colon, else provider `openai`. -/
def parse_model_string (ms : String) : String × String :=
  if ms.data.contains ':' then
    (⟨ms.data.takeWhile (· != ':')⟩, ⟨(ms.data.dropWhile (· != ':')).drop 1⟩)
  else ("openai", ms)

/-- The config dict assembled from a database row (with the `0.7`
temperature default). -/
def configOfRow (row : ModelConfigRow) : ServiceConfig :=
  { provider := (parse_model_string row.model_string).1
    model := (parse_model_string row.model_string).2
    temperature := row.temperature.getD "0.7"
    max_tokens := row.max_tokens }

/-- `ProviderManager._cache_ttl = 300`. -/
def cache_ttl : Nat := 300

/-- Observable result of one `get_service_config` call: the returned config
(or the raised `ValueError` message), the config cache after the call, and
whether a database lookup was issued. -/
structure ConfigFetchResult where
  outcome : Except String ServiceConfig
  cache : String → Option (ServiceConfig × Nat)
  dbCalled : Bool

/-- `ProviderManager.get_service_config`.  `cache` is `_config_cache`
(service name to cached config and timestamp), `db` the `model_config`
table lookup, `now` the current `time.time()`.  A cached entry younger than
the TTL is returned without a database call; otherwise the database is
consulted, the parsed config cached with timestamp `now` on success, and a
`ValueError` raised (cache unchanged) when no row exists. -/
def get_service_config (cache : String → Option (ServiceConfig × Nat))
    (db : String → Option ModelConfigRow) (now : Nat) (service : String) :
    ConfigFetchResult :=
  let fetch : ConfigFetchResult :=
    match db service with
    | some row =>
      { outcome := .ok (configOfRow row)
        cache := fun s =>
          if s = service then some (configOfRow row, now) else cache s
        dbCalled := true }
    | none =>
      { outcome :=
          .error ("Failed to load model configuration for service " ++ service)
        cache := cache
        dbCalled := true }
  match cache service with
  | some (config, timestamp) =>
    if now - timestamp < cache_ttl then
      { outcome := .ok config, cache := cache, dbCalled := false }
    else fetch
  | none => fetch

/-- The `PROVIDER_BASE_URLS` table of `ProviderManager`. -/
def PROVIDER_BASE_URLS (p : String) : Option String :=
  if p = "ollama" then some "http://host.docker.internal:11434/v1"
  else if p = "google" ∨ p = "gemini" then
    some "https://generativelanguage.googleapis.com/v1beta/openai/"
  else none

/-- The `openai.AsyncOpenAI(...)` construction arguments. -/
structure ClientHandle where
  base_url : Option String
  api_key : String
deriving Repr, DecidableEq

/-- `ProviderManager.get_client`, after the service config has resolved to
`provider` and `get_api_key` returned `api_key`.  For a provider other than
`ollama` with no API key the call raises before any client is constructed
(the `.error` branch builds no `ClientHandle`); for `ollama` the client is
built with the fixed `not-needed` credential regardless of any key. -/
def get_client (provider : String) (api_key : Option String) :
    Except String ClientHandle :=
  if api_key = none ∧ provider ≠ "ollama" then
    .error ("API key not configured for provider: " ++ provider)
  else
    let base_url := PROVIDER_BASE_URLS provider
    if provider = "ollama" then
      .ok { base_url := some (base_url.getD "http://host.docker.internal:11434/v1")
            api_key := "not-needed" }
    else if provider = "google" ∨ provider = "gemini" then
      .ok { base_url := some "https://generativelanguage.googleapis.com/v1beta/openai/"
            api_key := api_key.getD "" }
    else
      .ok { base_url := base_url, api_key := api_key.getD "" }

/-- Concrete model-config row used in the cache examples. -/
def exampleRow : ModelConfigRow :=
  { model_string := "openai:text-embedding-3-small"
    temperature := none
    max_tokens := none }

/-- Concrete Config Store holding a single `embeddings` row. -/
def exampleDb : String → Option ModelConfigRow :=
  fun s => if s = "embeddings" then some exampleRow else none

example :
    (process_embeddings_with_client (fun _ _ => .success [[1], [2]])
      ["a", "b"] 2 {}).1.success_count = 2 := by decide

example :
    parse_model_string "google:text-embedding-004"
    = ("google", "text-embedding-004") := by decide

example : get_client "ollama" none
    = .ok { base_url := some "http://host.docker.internal:11434/v1",
            api_key := "not-needed" } := rfl

example :
    (get_service_config (fun _ => none)
      (fun s => if s = "embeddings" then
          some { model_string := "openai:text-embedding-3-small",
                 temperature := none, max_tokens := none }
        else none)
      0 "embeddings").dbCalled = true := by decide

section FoldLemmas

variable (e : EmbError) (bi : Option Nat)

@[simp]
theorem foldl_add_success_embeddings (l : List (String × Vec))
    (r : EmbeddingBatchResult) :
    (l.foldl (fun a p => a.add_success p.2 p.1) r).embeddings
    = r.embeddings ++ l.map Prod.snd := by
  induction l generalizing r with
  | nil => simp
  | cons p t ih =>
    rw [List.foldl_cons, ih]
    simp [EmbeddingBatchResult.add_success]

@[simp]
theorem foldl_add_success_texts (l : List (String × Vec))
    (r : EmbeddingBatchResult) :
    (l.foldl (fun a p => a.add_success p.2 p.1) r).texts_processed
    = r.texts_processed ++ l.map Prod.fst := by
  induction l generalizing r with
  | nil => simp
  | cons p t ih =>
    rw [List.foldl_cons, ih]
    simp [EmbeddingBatchResult.add_success]

@[simp]
theorem foldl_add_success_success_count (l : List (String × Vec))
    (r : EmbeddingBatchResult) :
    (l.foldl (fun a p => a.add_success p.2 p.1) r).success_count
    = r.success_count + l.length := by
  induction l generalizing r with
  | nil => simp
  | cons p t ih =>
    rw [List.foldl_cons, ih]
    simp only [EmbeddingBatchResult.add_success, List.length_cons]
    omega

@[simp]
theorem foldl_add_success_failure_count (l : List (String × Vec))
    (r : EmbeddingBatchResult) :
    (l.foldl (fun a p => a.add_success p.2 p.1) r).failure_count
    = r.failure_count := by
  induction l generalizing r with
  | nil => simp
  | cons p t ih =>
    rw [List.foldl_cons, ih]
    simp [EmbeddingBatchResult.add_success]

@[simp]
theorem foldl_add_success_failed_items (l : List (String × Vec))
    (r : EmbeddingBatchResult) :
    (l.foldl (fun a p => a.add_success p.2 p.1) r).failed_items
    = r.failed_items := by
  induction l generalizing r with
  | nil => simp
  | cons p t ih =>
    rw [List.foldl_cons, ih]
    simp [EmbeddingBatchResult.add_success]

@[simp]
theorem foldl_add_failure_failed_items (l : List String)
    (r : EmbeddingBatchResult) :
    (l.foldl (fun a t => a.add_failure t e bi) r).failed_items
    = r.failed_items ++ l.map (fun t => mkFailedItem t e bi) := by
  induction l generalizing r with
  | nil => simp
  | cons s t ih =>
    rw [List.foldl_cons, ih]
    simp [EmbeddingBatchResult.add_failure]

@[simp]
theorem foldl_add_failure_failure_count (l : List String)
    (r : EmbeddingBatchResult) :
    (l.foldl (fun a t => a.add_failure t e bi) r).failure_count
    = r.failure_count + l.length := by
  induction l generalizing r with
  | nil => simp
  | cons s t ih =>
    rw [List.foldl_cons, ih]
    simp only [EmbeddingBatchResult.add_failure, List.length_cons]
    omega

@[simp]
theorem foldl_add_failure_success_count (l : List String)
    (r : EmbeddingBatchResult) :
    (l.foldl (fun a t => a.add_failure t e bi) r).success_count
    = r.success_count := by
  induction l generalizing r with
  | nil => simp
  | cons s t ih =>
    rw [List.foldl_cons, ih]
    simp [EmbeddingBatchResult.add_failure]

@[simp]
theorem foldl_add_failure_embeddings (l : List String)
    (r : EmbeddingBatchResult) :
    (l.foldl (fun a t => a.add_failure t e bi) r).embeddings
    = r.embeddings := by
  induction l generalizing r with
  | nil => simp
  | cons s t ih =>
    rw [List.foldl_cons, ih]
    simp [EmbeddingBatchResult.add_failure]

@[simp]
theorem foldl_add_failure_texts (l : List String)
    (r : EmbeddingBatchResult) :
    (l.foldl (fun a t => a.add_failure t e bi) r).texts_processed
    = r.texts_processed := by
  induction l generalizing r with
  | nil => simp
  | cons s t ih =>
    rw [List.foldl_cons, ih]
    simp [EmbeddingBatchResult.add_failure]

end FoldLemmas

theorem processTexts_done (client : Nat → Nat → ApiResponse)
    (texts : List String) (bs fuel i : Nat) (acc : EmbeddingBatchResult)
    (h : texts.length ≤ i) :
    processTexts client texts bs fuel i acc = (acc, []) := by
  cases fuel with
  | zero => simp [processTexts]
  | succ n => simp [processTexts, Nat.not_lt.mpr h]

section BatchLemmas

variable (client : Nat → Nat → ApiResponse) (bIdx : Nat) (batch : List String)

theorem processBatchGo_ok (remaining : Nat) :
    ∀ retry pairs, retry + remaining = maxRetries → 0 < remaining →
      (processBatchGo client bIdx batch retry remaining).1 = .ok pairs →
      ∃ a d, client bIdx a = .success d ∧ pairs = batch.zip d := by
  induction remaining with
  | zero => intro retry pairs h1 h2 _; omega
  | succ n ih =>
    intro retry pairs h1 _ heq
    cases hcl : client bIdx retry with
    | success d =>
      simp [processBatchGo, hcl] at heq
      exact ⟨retry, d, hcl, heq.symm⟩
    | rateLimitError m =>
      by_cases hq : hasInsufficientQuota m = true
      · simp [processBatchGo, hcl, hq] at heq
      · by_cases hlt : retry + 1 < maxRetries
        · refine ih (retry + 1) pairs (by omega) (by omega) ?_
          simpa [processBatchGo, hcl, hq, hlt] using heq
        · simp [processBatchGo, hcl, hq, hlt] at heq
    | otherError m =>
      simp [processBatchGo, hcl] at heq

theorem processBatchGo_no_quota
    (h : ∀ a, (client bIdx a).isQuota = false) (remaining : Nat) :
    ∀ retry, (processBatchGo client bIdx batch retry remaining).1 ≠ .quota := by
  induction remaining with
  | zero => intro retry heq; simp [processBatchGo] at heq
  | succ n ih =>
    intro retry
    cases hcl : client bIdx retry with
    | success d => simp [processBatchGo, hcl]
    | rateLimitError m =>
      have hq : hasInsufficientQuota m = false := by
        have hr := h retry
        rw [hcl] at hr
        simpa [ApiResponse.isQuota] using hr
      by_cases hlt : retry + 1 < maxRetries
      · intro heq
        refine ih (retry + 1) ?_
        simpa [processBatchGo, hcl, hq, hlt] using heq
      · simp [processBatchGo, hcl, hq, hlt]
    | otherError m => simp [processBatchGo, hcl]

theorem processBatchGo_events (remaining : Nat) :
    ∀ retry e, e ∈ (processBatchGo client bIdx batch retry remaining).2 →
      (∃ a, e = .request bIdx a batch) ∨ ∃ s, e = .sleep s := by
  induction remaining with
  | zero => intro retry e he; simp [processBatchGo] at he
  | succ n ih =>
    intro retry e he
    cases hcl : client bIdx retry with
    | success d =>
      simp [processBatchGo, hcl] at he
      exact .inl ⟨retry, he⟩
    | rateLimitError m =>
      by_cases hq : hasInsufficientQuota m = true
      · simp [processBatchGo, hcl, hq] at he
        exact .inl ⟨retry, he⟩
      · by_cases hlt : retry + 1 < maxRetries
        · simp only [processBatchGo, hcl, hq, hlt, if_true, if_false,
            Bool.false_eq_true, if_neg, ite_false, ite_true, if_pos,
            List.mem_cons] at he
          rcases he with rfl | he
          · exact .inl ⟨retry, rfl⟩
          · rcases he with rfl | he
            · exact .inr ⟨2 ^ (retry + 1), rfl⟩
            · exact ih (retry + 1) e he
        · simp [processBatchGo, hcl, hq, hlt] at he
          exact .inl ⟨retry, he⟩
    | otherError m =>
      simp [processBatchGo, hcl] at he
      exact .inl ⟨retry, he⟩

theorem processBatchGo_request_count (remaining : Nat) :
    ∀ retry,
      ((processBatchGo client bIdx batch retry remaining).2.filter
        Event.isRequest).length ≤ remaining := by
  induction remaining with
  | zero => intro retry; simp [processBatchGo]
  | succ n ih =>
    intro retry
    cases hcl : client bIdx retry with
    | success d => simp [processBatchGo, hcl, Event.isRequest]
    | rateLimitError m =>
      by_cases hq : hasInsufficientQuota m = true
      · simp [processBatchGo, hcl, hq, Event.isRequest]
      · by_cases hlt : retry + 1 < maxRetries
        · have hc := ih (retry + 1)
          simp only [processBatchGo, hcl, hq, hlt, Bool.false_eq_true,
            if_false, ite_false, ite_true, if_pos, if_neg,
            List.filter_cons, Event.isRequest, List.length_cons]
          omega
        · simp [processBatchGo, hcl, hq, hlt, Event.isRequest]
    | otherError m => simp [processBatchGo, hcl, Event.isRequest]

theorem processBatchGo_head (remaining : Nat) (retry : Nat)
    (h : 0 < remaining) :
    ∃ rest, (processBatchGo client bIdx batch retry remaining).2
      = .request bIdx retry batch :: rest := by
  cases remaining with
  | zero => omega
  | succ n =>
    cases hcl : client bIdx retry with
    | success d => exact ⟨[], by simp [processBatchGo, hcl]⟩
    | rateLimitError m =>
      by_cases hq : hasInsufficientQuota m = true
      · exact ⟨[], by simp [processBatchGo, hcl, hq]⟩
      · by_cases hlt : retry + 1 < maxRetries
        · exact ⟨.sleep (2 ^ (retry + 1))
              :: (processBatchGo client bIdx batch (retry + 1) n).2,
            by simp [processBatchGo, hcl, hq, hlt]⟩
        · exact ⟨[], by simp [processBatchGo, hcl, hq, hlt]⟩
    | otherError m => exact ⟨[], by simp [processBatchGo, hcl]⟩

theorem processBatchGo_quota (a0 : Nat) (ha : a0 < maxRetries)
    (hpl : ∀ a, a < a0 → (client bIdx a).isPlainRateLimit = true)
    (hq : (client bIdx a0).isQuota = true) (remaining : Nat) :
    ∀ retry, retry + remaining = maxRetries → retry ≤ a0 →
      (processBatchGo client bIdx batch retry remaining).1 = .quota := by
  induction remaining with
  | zero => intro retry h1 h2; omega
  | succ n ih =>
    intro retry h1 h2
    rcases Nat.lt_or_ge retry a0 with hlt | hge
    · have hp := hpl retry hlt
      cases hcl : client bIdx retry with
      | success d => rw [hcl] at hp; simp [ApiResponse.isPlainRateLimit] at hp
      | otherError m => rw [hcl] at hp; simp [ApiResponse.isPlainRateLimit] at hp
      | rateLimitError m =>
        rw [hcl] at hp
        simp only [ApiResponse.isPlainRateLimit, Bool.not_eq_eq_eq_not,
          Bool.not_true] at hp
        have hstep : retry + 1 < maxRetries := by
          simp only [maxRetries] at ha ⊢
          omega
        simp only [processBatchGo, hcl, hp, Bool.false_eq_true, if_false,
          ite_false, hstep, if_pos, ite_true]
        exact ih (retry + 1) (by omega) (by omega)
    · have hra : retry = a0 := by omega
      subst hra
      cases hcl : client bIdx retry with
      | success d => rw [hcl] at hq; simp [ApiResponse.isQuota] at hq
      | otherError m => rw [hcl] at hq; simp [ApiResponse.isQuota] at hq
      | rateLimitError m =>
        rw [hcl] at hq
        simp only [ApiResponse.isQuota] at hq
        simp [processBatchGo, hcl, hq]

end BatchLemmas

theorem processBatch_ok (client : Nat → Nat → ApiResponse) (bIdx : Nat)
    (batch : List String) (pairs : List (String × Vec)) (evs : List Event)
    (h : processBatch client bIdx batch = (.ok pairs, evs)) :
    ∃ a d, client bIdx a = .success d ∧ pairs = batch.zip d := by
  unfold processBatch at h
  exact processBatchGo_ok client bIdx batch maxRetries 0 pairs
    (by simp) (by simp [maxRetries]) (by rw [h])

theorem processBatch_no_quota (client : Nat → Nat → ApiResponse) (bIdx : Nat)
    (batch : List String) (h : ∀ a, (client bIdx a).isQuota = false) :
    (processBatch client bIdx batch).1 ≠ .quota :=
  processBatchGo_no_quota client bIdx batch h maxRetries 0

theorem processBatch_events (client : Nat → Nat → ApiResponse) (bIdx : Nat)
    (batch : List String) (e : Event)
    (he : e ∈ (processBatch client bIdx batch).2) :
    (∃ a, e = .request bIdx a batch) ∨ ∃ s, e = .sleep s :=
  processBatchGo_events client bIdx batch maxRetries 0 e he

theorem processBatch_quota (client : Nat → Nat → ApiResponse) (bIdx : Nat)
    (batch : List String) (a0 : Nat) (ha : a0 < maxRetries)
    (hpl : ∀ a, a < a0 → (client bIdx a).isPlainRateLimit = true)
    (hq : (client bIdx a0).isQuota = true) :
    (processBatch client bIdx batch).1 = .quota :=
  processBatchGo_quota client bIdx batch a0 ha hpl hq maxRetries 0
    (by simp) (Nat.zero_le a0)

theorem processBatch_head (client : Nat → Nat → ApiResponse) (bIdx : Nat)
    (batch : List String) :
    ∃ rest, (processBatch client bIdx batch).2
      = .request bIdx 0 batch :: rest :=
  processBatchGo_head client bIdx batch maxRetries 0 (by simp [maxRetries])

/-- Core counting invariant: with a provider whose successful responses
carry at least one vector per requested input, every input item receives
exactly one outcome. -/
theorem processTexts_counts (client : Nat → Nat → ApiResponse)
    (texts : List String) (bs : Nat) (hbs : 0 < bs)
    (hconf : ∀ b a d, client b a = ApiResponse.success d → bs ≤ d.length) :
    ∀ fuel i acc, texts.length - i ≤ fuel →
      (processTexts client texts bs fuel i acc).1.success_count
        + (processTexts client texts bs fuel i acc).1.failure_count
      = acc.success_count + acc.failure_count + (texts.length - i) := by
  intro fuel
  induction fuel with
  | zero =>
    intro i acc h
    show acc.success_count + acc.failure_count
      = acc.success_count + acc.failure_count + (texts.length - i)
    omega
  | succ n ih =>
    intro i acc h
    by_cases hi : i < texts.length
    · rcases hpb : processBatch client (i / bs) ((texts.drop i).take bs)
        with ⟨o, evs⟩
      cases o with
      | ok pairs =>
        obtain ⟨a, d, hcl, hpairs⟩ :=
          processBatch_ok client (i / bs) ((texts.drop i).take bs) pairs evs hpb
        have hd := hconf _ _ _ hcl
        have hpl : pairs.length = min (min bs (texts.length - i)) d.length := by
          rw [hpairs]
          simp
        simp only [processTexts, hi, ite_true, if_pos, hpb]
        rw [ih (i + bs) _ (by omega)]
        simp only [foldl_add_success_success_count, foldl_add_success_failure_count]
        omega
      | quota =>
        simp only [processTexts, hi, ite_true, if_pos, hpb]
        simp only [foldl_add_failure_success_count, foldl_add_failure_failure_count,
          List.length_drop]
        omega
      | failed e =>
        simp only [processTexts, hi, ite_true, if_pos, hpb]
        rw [ih (i + bs) _ (by omega)]
        simp only [foldl_add_failure_success_count, foldl_add_failure_failure_count,
          List.length_take, List.length_drop]
        omega
    · rw [processTexts_done client texts bs (n + 1) i acc (by omega)]
      show acc.success_count + acc.failure_count
        = acc.success_count + acc.failure_count + (texts.length - i)
      omega

theorem validate_texts_eq_map (items : List PyItem) :
    validate_texts items = items.map coerceItem := by
  have haux : ∀ (items : List PyItem) (acc : List String),
      items.foldl (fun acc it => acc ++ [coerceItem it]) acc
      = acc ++ items.map coerceItem := by
    intro items
    induction items with
    | nil => intro acc; simp
    | cons x t ih => intro acc; rw [List.foldl_cons, ih]; simp
  simpa [validate_texts] using haux items []

theorem validate_texts_length (items : List PyItem) :
    (validate_texts items).length = items.length := by
  rw [validate_texts_eq_map]
  simp

/-- Unrolled retry loop: plain rate limits on attempts 0 and 1, success on
attempt 2, produce sleeps of `2 ^ 1 = 2` and `2 ^ 2 = 4` seconds between
re-issues of the same batch, and the successful zip outcome. -/
theorem processBatch_two_rate_limits_then_success
    (client : Nat → Nat → ApiResponse) (b : Nat) (batch : List String)
    (m0 m1 : String) (data : List Vec)
    (h0 : client b 0 = .rateLimitError m0)
    (hq0 : hasInsufficientQuota m0 = false)
    (h1 : client b 1 = .rateLimitError m1)
    (hq1 : hasInsufficientQuota m1 = false)
    (h2 : client b 2 = .success data) :
    processBatch client b batch
    = (.ok (batch.zip data),
       [.request b 0 batch, .sleep 2, .request b 1 batch, .sleep 4,
        .request b 2 batch]) := by
  simp [processBatch, processBatchGo, maxRetries, h0, h1, h2, hq0, hq1]

/-- Unrolled retry loop: plain rate limits on all three attempts exhaust
the retries; the last rate-limit error propagates and the outer handler
wraps it as an `EmbeddingAPIError`. -/
theorem processBatch_three_rate_limits
    (client : Nat → Nat → ApiResponse) (b : Nat) (batch : List String)
    (m0 m1 m2 : String)
    (h0 : client b 0 = .rateLimitError m0)
    (hq0 : hasInsufficientQuota m0 = false)
    (h1 : client b 1 = .rateLimitError m1)
    (hq1 : hasInsufficientQuota m1 = false)
    (h2 : client b 2 = .rateLimitError m2)
    (hq2 : hasInsufficientQuota m2 = false) :
    processBatch client b batch
    = (.failed (.apiError ("Failed to create embedding: " ++ m2)),
       [.request b 0 batch, .sleep 2, .request b 1 batch, .sleep 4,
        .request b 2 batch]) := by
  simp [processBatch, processBatchGo, maxRetries, h0, h1, h2, hq0, hq1, hq2]

/-- Claim C4: on rate-limit errors that are not quota exhaustion the same
batch is re-issued after sleeping `2 ^ retry_count` seconds, with the
retry count capped at `max_retries = 3` (so at most three requests per
batch); a single-batch run whose provider rate-limits twice and succeeds
on the third attempt sleeps 2s then 4s and reports the batch fully
successful. -/
theorem c4_rate_limit_retry_backoff (client : Nat → Nat → ApiResponse)
    (t : String) (ts : List String) (bs : Nat)
    (hlen : (t :: ts).length ≤ bs)
    (m0 m1 : String) (data : List Vec)
    (h0 : client 0 0 = .rateLimitError m0)
    (hq0 : hasInsufficientQuota m0 = false)
    (h1 : client 0 1 = .rateLimitError m1)
    (hq1 : hasInsufficientQuota m1 = false)
    (h2 : client 0 2 = .success data) (hd : data.length = (t :: ts).length) :
    ((process_embeddings_with_client client (t :: ts) bs {}).1.success_count
      = (t :: ts).length)
    ∧ (process_embeddings_with_client client (t :: ts) bs {}).1.failure_count
      = 0
    ∧ (process_embeddings_with_client client (t :: ts) bs {}).2
      = [.request 0 0 (t :: ts), .sleep 2, .request 0 1 (t :: ts), .sleep 4,
         .request 0 2 (t :: ts)]
    ∧ ∀ (client2 : Nat → Nat → ApiResponse) (b : Nat) (batch : List String),
        ((processBatch client2 b batch).2.filter Event.isRequest).length
          ≤ maxRetries := by
  have hbatch : ((t :: ts : List String)).take bs = t :: ts :=
    List.take_of_length_le hlen
  have hpb := processBatch_two_rate_limits_then_success client 0 (t :: ts)
    m0 m1 data h0 hq0 h1 hq1 h2
  have hrun : process_embeddings_with_client client (t :: ts) bs {}
      = (((t :: ts).zip data).foldl (fun r p => r.add_success p.2 p.1) {},
         [.request 0 0 (t :: ts), .sleep 2, .request 0 1 (t :: ts), .sleep 4,
          .request 0 2 (t :: ts)] ++ []) := by
    simp only [process_embeddings_with_client, List.length_cons, processTexts,
      List.drop_zero, Nat.zero_div, hbatch, hpb]
    rw [if_pos (by omega : 0 < ts.length + 1)]
    rw [processTexts_done client (t :: ts) bs ts.length (0 + bs) _
      (by simpa using hlen)]
  refine ⟨?_, ?_, ?_, ?_⟩
  · rw [hrun]
    simp only [foldl_add_success_success_count, List.length_zip, hd]
    show 0 + min (t :: ts).length (t :: ts).length = (t :: ts).length
    omega
  · rw [hrun]
    simp only [foldl_add_success_failure_count]
  · rw [hrun]
    simp
  · intro client2 b batch
    exact processBatchGo_request_count client2 b batch maxRetries 0

/-- Witness for `c4_rate_limit_retry_backoff` on a concrete two-item
single-batch run. -/
theorem c4_witness :
    ((["x", "y"] : List String).length ≤ 2)
    ∧ (((fun _ a => if a = 0 then ApiResponse.rateLimitError "r0"
          else if a = 1 then ApiResponse.rateLimitError "r1"
          else ApiResponse.success [[1], [2]]) :
        Nat → Nat → ApiResponse) 0 0 = .rateLimitError "r0")
    ∧ hasInsufficientQuota "r0" = false
    ∧ (((fun _ a => if a = 0 then ApiResponse.rateLimitError "r0"
          else if a = 1 then ApiResponse.rateLimitError "r1"
          else ApiResponse.success [[1], [2]]) :
        Nat → Nat → ApiResponse) 0 2 = .success [[1], [2]])
    ∧ ((process_embeddings_with_client
        (fun _ a => if a = 0 then ApiResponse.rateLimitError "r0"
          else if a = 1 then ApiResponse.rateLimitError "r1"
          else ApiResponse.success [[1], [2]])
        ["x", "y"] 2 {}).1.success_count = (["x", "y"] : List String).length
      ∧ (process_embeddings_with_client
          (fun _ a => if a = 0 then ApiResponse.rateLimitError "r0"
            else if a = 1 then ApiResponse.rateLimitError "r1"
            else ApiResponse.success [[1], [2]])
          ["x", "y"] 2 {}).1.failure_count = 0
      ∧ (process_embeddings_with_client
          (fun _ a => if a = 0 then ApiResponse.rateLimitError "r0"
            else if a = 1 then ApiResponse.rateLimitError "r1"
            else ApiResponse.success [[1], [2]])
          ["x", "y"] 2 {}).2
        = [.request 0 0 ["x", "y"], .sleep 2, .request 0 1 ["x", "y"],
           .sleep 4, .request 0 2 ["x", "y"]]
      ∧ ∀ (client2 : Nat → Nat → ApiResponse) (b : Nat)
          (batch : List String),
          ((processBatch client2 b batch).2.filter Event.isRequest).length
            ≤ maxRetries) :=
  ⟨by decide, by decide, by decide, by decide,
    c4_rate_limit_retry_backoff
      (fun _ a => if a = 0 then ApiResponse.rateLimitError "r0"
        else if a = 1 then ApiResponse.rateLimitError "r1"
        else ApiResponse.success [[1], [2]])
      "x" ["y"] 2 (by decide) "r0" "r1" [[1], [2]]
      (by decide) (by decide) (by decide) (by decide) (by decide) (by decide)⟩

/-- Run-level quota short-circuit: if no batch before `k` ever sees a
quota-exhaustion response and batch `k` sees one at attempt `a0` (after
plain rate limits), then from any batch start `j ≤ k` the run ends with the
whole remaining input from the start of batch `k` recorded as
`EmbeddingQuotaExhaustedError` failures, and no request touches a batch
beyond `k`. -/
theorem processTexts_quota (client : Nat → Nat → ApiResponse)
    (texts : List String) (bs k : Nat) (hbs : 0 < bs)
    (hk : k * bs < texts.length)
    (hpre : ∀ b a, b < k → (client b a).isQuota = false)
    (a0 : Nat) (ha : a0 < maxRetries)
    (hpl : ∀ a, a < a0 → (client k a).isPlainRateLimit = true)
    (hq : (client k a0).isQuota = true) :
    ∀ fuel j acc, j ≤ k → texts.length - j * bs ≤ fuel →
      (∃ pre, (processTexts client texts bs fuel (j * bs) acc).1.failed_items
        = pre ++ (texts.drop (k * bs)).map
            (fun t => mkFailedItem t (.quotaExhausted "Quota exhausted") (some k)))
      ∧ ∀ e ∈ (processTexts client texts bs fuel (j * bs) acc).2,
          e.batchLE k := by
  intro fuel
  induction fuel with
  | zero =>
    intro j acc hj h
    exfalso
    have hm : j * bs ≤ k * bs := Nat.mul_le_mul_right bs hj
    omega
  | succ n ih =>
    intro j acc hj h
    have hm : j * bs ≤ k * bs := Nat.mul_le_mul_right bs hj
    have hjlt : j * bs < texts.length := by omega
    have hdiv : j * bs / bs = j := Nat.mul_div_cancel j hbs
    rcases hpb : processBatch client (j * bs / bs)
        ((texts.drop (j * bs)).take bs) with ⟨o, evs⟩
    have hevs : ∀ e ∈ evs, e.batchLE k := by
      intro e he
      have hme : e ∈ (processBatch client (j * bs / bs)
          ((texts.drop (j * bs)).take bs)).2 := by rw [hpb]; exact he
      rcases processBatch_events _ _ _ e hme with ⟨a, rfl⟩ | ⟨s, rfl⟩
      · simp only [Event.batchLE, hdiv]
        omega
      · simp [Event.batchLE]
    rcases Nat.lt_or_ge j k with hjk | hjk
    · have hnq : o ≠ .quota := by
        have hno := processBatch_no_quota client (j * bs / bs)
          ((texts.drop (j * bs)).take bs)
          (by rw [hdiv]; exact fun a => hpre j a hjk)
        rw [hpb] at hno
        exact hno
      have hsm : (j + 1) * bs = j * bs + bs := Nat.succ_mul j bs
      cases o with
      | quota => exact absurd rfl hnq
      | ok pairs =>
        have hrec := ih (j + 1)
          (pairs.foldl (fun r p => r.add_success p.2 p.1) acc)
          (by omega) (by rw [hsm]; omega)
        rw [hsm] at hrec
        obtain ⟨⟨pre, hfi⟩, hev⟩ := hrec
        simp only [processTexts, hjlt, ite_true, if_pos, hpb]
        refine ⟨⟨pre, hfi⟩, ?_⟩
        intro e he
        rcases List.mem_append.mp he with he1 | he2
        · exact hevs e he1
        · exact hev e he2
      | failed err =>
        have hrec := ih (j + 1)
          (((texts.drop (j * bs)).take bs).foldl
            (fun r t => r.add_failure t err (some (j * bs / bs))) acc)
          (by omega) (by rw [hsm]; omega)
        rw [hsm] at hrec
        obtain ⟨⟨pre, hfi⟩, hev⟩ := hrec
        simp only [processTexts, hjlt, ite_true, if_pos, hpb]
        refine ⟨⟨pre, hfi⟩, ?_⟩
        intro e he
        rcases List.mem_append.mp he with he1 | he2
        · exact hevs e he1
        · exact hev e he2
    · have hje : j = k := Nat.le_antisymm hj hjk
      subst hje
      have hqo : o = .quota := by
        have hqq := processBatch_quota client (j * bs / bs)
          ((texts.drop (j * bs)).take bs) a0 ha
          (by rw [hdiv]; exact hpl) (by rw [hdiv]; exact hq)
        rw [hpb] at hqq
        exact hqq
      subst hqo
      simp only [processTexts, hjlt, ite_true, if_pos, hpb]
      constructor
      · refine ⟨acc.failed_items, ?_⟩
        simp [hdiv]
      · exact hevs

/-- The run only ever appends to `failed_items`. -/
theorem processTexts_failed_mono (client : Nat → Nat → ApiResponse)
    (texts : List String) (bs : Nat) :
    ∀ fuel i acc, ∃ tail,
      (processTexts client texts bs fuel i acc).1.failed_items
      = acc.failed_items ++ tail := by
  intro fuel
  induction fuel with
  | zero => intro i acc; exact ⟨[], by simp [processTexts]⟩
  | succ n ih =>
    intro i acc
    by_cases hi : i < texts.length
    · rcases hpb : processBatch client (i / bs) ((texts.drop i).take bs)
        with ⟨o, evs⟩
      cases o with
      | ok pairs =>
        obtain ⟨tail, htail⟩ :=
          ih (i + bs) (pairs.foldl (fun r p => r.add_success p.2 p.1) acc)
        refine ⟨tail, ?_⟩
        simp only [processTexts, hi, ite_true, if_pos, hpb]
        rw [htail, foldl_add_success_failed_items]
      | quota =>
        refine ⟨(texts.drop i).map
          (fun t => mkFailedItem t (.quotaExhausted "Quota exhausted")
            (some (i / bs))), ?_⟩
        simp only [processTexts, hi, ite_true, if_pos, hpb,
          foldl_add_failure_failed_items]
      | failed err =>
        obtain ⟨tail, htail⟩ := ih (i + bs)
          (((texts.drop i).take bs).foldl
            (fun r t => r.add_failure t err (some (i / bs))) acc)
        refine ⟨((texts.drop i).take bs).map
          (fun t => mkFailedItem t err (some (i / bs))) ++ tail, ?_⟩
        simp only [processTexts, hi, ite_true, if_pos, hpb]
        rw [htail, foldl_add_failure_failed_items, List.append_assoc]
    · exact ⟨[], by rw [processTexts_done client texts bs (n + 1) i acc
        (by omega)]; simp⟩

/-- Run-level behaviour when a batch `k` exhausts its retries (or
otherwise fails): every item of batch `k` is recorded in `failed_items`
with the wrapped error, and when another batch remains the run issues its
first request (so the run continues rather than aborting). -/
theorem processTexts_failed_reach (client : Nat → Nat → ApiResponse)
    (texts : List String) (bs k : Nat) (hbs : 0 < bs)
    (hk : k * bs < texts.length)
    (hpre : ∀ b a, b < k → (client b a).isQuota = false)
    (err : EmbError)
    (hfail : (processBatch client k ((texts.drop (k * bs)).take bs)).1
      = .failed err) :
    ∀ fuel j acc, j ≤ k → texts.length - j * bs ≤ fuel →
      (∀ t ∈ (texts.drop (k * bs)).take bs,
        mkFailedItem t err (some k) ∈
          (processTexts client texts bs fuel (j * bs) acc).1.failed_items)
      ∧ ((k + 1) * bs < texts.length →
          Event.request (k + 1) 0 ((texts.drop ((k + 1) * bs)).take bs)
            ∈ (processTexts client texts bs fuel (j * bs) acc).2) := by
  intro fuel
  induction fuel with
  | zero =>
    intro j acc hj h
    exfalso
    have hm : j * bs ≤ k * bs := Nat.mul_le_mul_right bs hj
    omega
  | succ n ih =>
    intro j acc hj h
    have hm : j * bs ≤ k * bs := Nat.mul_le_mul_right bs hj
    have hjlt : j * bs < texts.length := by omega
    have hdiv : j * bs / bs = j := Nat.mul_div_cancel j hbs
    have hsm : (j + 1) * bs = j * bs + bs := Nat.succ_mul j bs
    rcases Nat.lt_or_ge j k with hjk | hjk
    · rcases hpb : processBatch client (j * bs / bs)
          ((texts.drop (j * bs)).take bs) with ⟨o, evs⟩
      have hnq : o ≠ .quota := by
        have hno := processBatch_no_quota client (j * bs / bs)
          ((texts.drop (j * bs)).take bs)
          (by rw [hdiv]; exact fun a => hpre j a hjk)
        rw [hpb] at hno
        exact hno
      cases o with
      | quota => exact absurd rfl hnq
      | ok pairs =>
        have hrec := ih (j + 1)
          (pairs.foldl (fun r p => r.add_success p.2 p.1) acc)
          (by omega) (by rw [hsm]; omega)
        rw [hsm] at hrec
        obtain ⟨hmem, hev⟩ := hrec
        simp only [processTexts, hjlt, ite_true, if_pos, hpb]
        exact ⟨hmem, fun hnx => List.mem_append_right _ (hev hnx)⟩
      | failed e2 =>
        have hrec := ih (j + 1)
          (((texts.drop (j * bs)).take bs).foldl
            (fun r t => r.add_failure t e2 (some (j * bs / bs))) acc)
          (by omega) (by rw [hsm]; omega)
        rw [hsm] at hrec
        obtain ⟨hmem, hev⟩ := hrec
        simp only [processTexts, hjlt, ite_true, if_pos, hpb]
        exact ⟨hmem, fun hnx => List.mem_append_right _ (hev hnx)⟩
    · have hje : j = k := Nat.le_antisymm hj hjk
      subst hje
      have hfail2 : (processBatch client (j * bs / bs)
          ((texts.drop (j * bs)).take bs)).1 = .failed err := by
        rw [hdiv]; exact hfail
      rcases hpb : processBatch client (j * bs / bs)
          ((texts.drop (j * bs)).take bs) with ⟨o, evs⟩
      rw [hpb] at hfail2
      subst hfail2
      simp only [processTexts, hjlt, ite_true, if_pos, hpb]
      constructor
      · intro t ht
        obtain ⟨tail, htail⟩ := processTexts_failed_mono client texts bs n
          (j * bs + bs) (((texts.drop (j * bs)).take bs).foldl
            (fun r t => r.add_failure t err (some (j * bs / bs))) acc)
        rw [htail, foldl_add_failure_failed_items, hdiv]
        refine List.mem_append_left _ (List.mem_append_right _ ?_)
        exact List.mem_map_of_mem _ ht
      · intro hnx
        rw [hsm] at hnx
        refine List.mem_append_right _ ?_
        rcases hn : n with _ | m
        · omega
        · subst hn
          obtain ⟨rest, hrest⟩ := processBatch_head client
            ((j * bs + bs) / bs) ((texts.drop (j * bs + bs)).take bs)
          have hd2 : (j * bs + bs) / bs = j + 1 := by
            rw [← hsm, Nat.mul_div_cancel (j + 1) hbs]
          rcases hpb2 : processBatch client ((j * bs + bs) / bs)
              ((texts.drop (j * bs + bs)).take bs) with ⟨o2, evs2⟩
          rw [hpb2] at hrest
          have hevs2 : evs2
              = Event.request ((j * bs + bs) / bs) 0
                  ((texts.drop (j * bs + bs)).take bs) :: rest := hrest
          have hreq : Event.request (j + 1) 0
              ((texts.drop ((j + 1) * bs)).take bs) ∈ evs2 := by
            rw [hevs2, hd2, hsm]
            exact List.mem_cons_self _ _
          simp only [processTexts, hnx, ite_true, if_pos, hpb2]
          cases o2 with
          | ok pairs2 => exact List.mem_append_left _ hreq
          | quota => exact hreq
          | failed e3 => exact List.mem_append_left _ hreq

/-- Claim C5 counterexample: after a batch exhausts its rate-limit
retries, its items are recorded with `error_type` `EmbeddingAPIError`
(the outer handler wraps the propagated `openai.RateLimitError`), not with
the `EmbeddingRateLimitError` kind the claim asserts. -/
theorem c5_counterexample :
    ((process_embeddings_with_client
        (fun b _ => if b = 0 then ApiResponse.rateLimitError "Rate limit reached"
          else ApiResponse.success [[2]])
        ["a", "b"] 1 {}).1.failed_items.map FailedItem.errorType
      = ["EmbeddingAPIError"])
    ∧ ¬ ((process_embeddings_with_client
        (fun b _ => if b = 0 then ApiResponse.rateLimitError "Rate limit reached"
          else ApiResponse.success [[2]])
        ["a", "b"] 1 {}).1.failed_items.map FailedItem.errorType
      = ["EmbeddingRateLimitError"]) := by decide

/-- Claim C5 (amended): when batch `k` exhausts its rate-limit retries
(three plain rate-limit responses), every item of that batch is recorded
in `failed_items` — with an `EmbeddingAPIError` wrapping the last
rate-limit message, not an `EmbeddingRateLimitError` — and the run
continues to the next batch (its first request is issued) rather than
aborting. -/
theorem c5_batch_failure_continues (client : Nat → Nat → ApiResponse)
    (texts : List String) (bs k : Nat) (hbs : 0 < bs)
    (hk : k * bs < texts.length)
    (hpre : ∀ b a, b < k → (client b a).isQuota = false)
    (m0 m1 m2 : String)
    (h0 : client k 0 = .rateLimitError m0)
    (hq0 : hasInsufficientQuota m0 = false)
    (h1 : client k 1 = .rateLimitError m1)
    (hq1 : hasInsufficientQuota m1 = false)
    (h2 : client k 2 = .rateLimitError m2)
    (hq2 : hasInsufficientQuota m2 = false) :
    (∀ t ∈ (texts.drop (k * bs)).take bs,
      mkFailedItem t (.apiError ("Failed to create embedding: " ++ m2))
          (some k)
        ∈ (process_embeddings_with_client client texts bs {}).1.failed_items)
    ∧ ((k + 1) * bs < texts.length →
        Event.request (k + 1) 0 ((texts.drop ((k + 1) * bs)).take bs)
          ∈ (process_embeddings_with_client client texts bs {}).2) := by
  have hfail : (processBatch client k ((texts.drop (k * bs)).take bs)).1
      = .failed (.apiError ("Failed to create embedding: " ++ m2)) := by
    rw [processBatch_three_rate_limits client k _ m0 m1 m2 h0 hq0 h1 hq1 h2 hq2]
  have := processTexts_failed_reach client texts bs k hbs hk hpre
    (.apiError ("Failed to create embedding: " ++ m2)) hfail
    texts.length 0 {} (Nat.zero_le k) (by simp)
  simpa [process_embeddings_with_client] using this

/-- Witness for `c5_batch_failure_continues`: two one-item batches, batch 0
rate-limited on all attempts, batch 1 succeeding. -/
theorem c5_witness :
    0 < 1
    ∧ 0 * 1 < (["a", "b"] : List String).length
    ∧ (∀ b a, b < 0 →
        (((fun b _ => if b = 0
            then ApiResponse.rateLimitError "Rate limit reached"
            else ApiResponse.success [[2]]) :
          Nat → Nat → ApiResponse) b a).isQuota = false)
    ∧ hasInsufficientQuota "Rate limit reached" = false
    ∧ ((∀ t ∈ ((["a", "b"] : List String).drop (0 * 1)).take 1,
        mkFailedItem t
            (.apiError ("Failed to create embedding: " ++ "Rate limit reached"))
            (some 0)
          ∈ (process_embeddings_with_client
            (fun b _ => if b = 0
              then ApiResponse.rateLimitError "Rate limit reached"
              else ApiResponse.success [[2]])
            ["a", "b"] 1 {}).1.failed_items)
      ∧ ((0 + 1) * 1 < (["a", "b"] : List String).length →
          Event.request (0 + 1) 0
              (((["a", "b"] : List String).drop ((0 + 1) * 1)).take 1)
            ∈ (process_embeddings_with_client
              (fun b _ => if b = 0
                then ApiResponse.rateLimitError "Rate limit reached"
                else ApiResponse.success [[2]])
              ["a", "b"] 1 {}).2)) :=
  ⟨by decide, by decide,
    by intro b a hb; exact absurd hb (Nat.not_lt_zero b),
    by decide,
    c5_batch_failure_continues
      (fun b _ => if b = 0 then ApiResponse.rateLimitError "Rate limit reached"
        else ApiResponse.success [[2]])
      ["a", "b"] 1 0 (by decide) (by decide)
      (by intro b a hb; exact absurd hb (Nat.not_lt_zero b))
      "Rate limit reached" "Rate limit reached" "Rate limit reached"
      (by decide) (by decide) (by decide) (by decide) (by decide) (by decide)⟩

/-- Claim C6 counterexample: a configuration error (both client-acquisition
paths failing) is not raised to the caller — `create_embeddings_batch`
returns normally with the error captured into `failed_items` through the
catastrophic-failure handler (and, consistently with the claim, no
embedding request is issued). -/
theorem c6_counterexample :
    (create_embeddings_batch [PyItem.str "a"]
      (.error "No model configuration found for service embeddings")
      100).1.failure_count = 1
    ∧ ((create_embeddings_batch [PyItem.str "a"]
        (.error "No model configuration found for service embeddings")
        100).1.failed_items.map FailedItem.error
      = ["Catastrophic failure: No model configuration found for service embeddings"])
    ∧ (create_embeddings_batch [PyItem.str "a"]
        (.error "No model configuration found for service embeddings")
        100).2 = [] := by decide

/-- Claim C6 (amended): configuration/credential errors prevent any
embedding request from being issued, but are not thrown to the caller:
`create_embeddings_batch` returns a result in which every input is marked
failed with `EmbeddingAPIError("Catastrophic failure: ...")`; errors
arising after the run has started are likewise captured per item, so a
caller whose batch has partial failures still receives the successful
embeddings (concrete scenario: batch 0 succeeds, batch 1 fails, the two
successful vectors are returned). -/
theorem c6_error_capture (items : List PyItem) (msg : String) (bs : Nat)
    (hne : items ≠ []) :
    ((create_embeddings_batch items (.error msg) bs).2 = [])
    ∧ (create_embeddings_batch items (.error msg) bs).1.failure_count
      = items.length
    ∧ (create_embeddings_batch items (.error msg) bs).1.success_count = 0
    ∧ (∀ f ∈ (create_embeddings_batch items (.error msg) bs).1.failed_items,
        f.errorType = "EmbeddingAPIError"
        ∧ f.error = "Catastrophic failure: " ++ msg)
    ∧ ((create_embeddings_batch [.str "a", .str "b", .str "c"]
        (.ok fun b _ => if b = 0 then ApiResponse.success [[1], [2]]
          else ApiResponse.otherError "boom") 2).1.embeddings = [[1], [2]]
      ∧ (create_embeddings_batch [.str "a", .str "b", .str "c"]
          (.ok fun b _ => if b = 0 then ApiResponse.success [[1], [2]]
            else ApiResponse.otherError "boom") 2).1.success_count = 2
      ∧ (create_embeddings_batch [.str "a", .str "b", .str "c"]
          (.ok fun b _ => if b = 0 then ApiResponse.success [[1], [2]]
            else ApiResponse.otherError "boom") 2).1.failure_count = 1) := by
  cases items with
  | nil => exact absurd rfl hne
  | cons x t =>
    refine ⟨rfl, ?_, ?_, ?_, by decide, by decide, by decide⟩
    · simp only [create_embeddings_batch, List.isEmpty_cons, Bool.false_eq_true,
        if_false, ite_false, foldl_add_failure_failure_count]
      have hlen := validate_texts_length (x :: t)
      show 0 + (validate_texts (x :: t)).length = (x :: t).length
      omega
    · simp only [create_embeddings_batch, List.isEmpty_cons, Bool.false_eq_true,
        if_false, ite_false, foldl_add_failure_success_count]
    · intro f hf
      simp only [create_embeddings_batch, List.isEmpty_cons, Bool.false_eq_true,
        if_false, ite_false, foldl_add_failure_failed_items] at hf
      have hf2 : f ∈ (validate_texts (x :: t)).map
          (fun t => mkFailedItem t
            (.apiError ("Catastrophic failure: " ++ msg)) none) := by
        simpa using hf
      obtain ⟨t2, _, rfl⟩ := List.mem_map.mp hf2
      exact ⟨rfl, rfl⟩

/-- Witness for `c6_error_capture` on a concrete one-item run with a
failed configuration. -/
theorem c6_witness :
    ([PyItem.str "a"] ≠ [])
    ∧ ((create_embeddings_batch [PyItem.str "a"]
        (.error "missing credential") 100).2 = []
      ∧ (create_embeddings_batch [PyItem.str "a"]
          (.error "missing credential") 100).1.failure_count
        = ([PyItem.str "a"] : List PyItem).length
      ∧ (create_embeddings_batch [PyItem.str "a"]
          (.error "missing credential") 100).1.success_count = 0
      ∧ (∀ f ∈ (create_embeddings_batch [PyItem.str "a"]
            (.error "missing credential") 100).1.failed_items,
          f.errorType = "EmbeddingAPIError"
          ∧ f.error = "Catastrophic failure: " ++ "missing credential")
      ∧ ((create_embeddings_batch [.str "a", .str "b", .str "c"]
          (.ok fun b _ => if b = 0 then ApiResponse.success [[1], [2]]
            else ApiResponse.otherError "boom") 2).1.embeddings = [[1], [2]]
        ∧ (create_embeddings_batch [.str "a", .str "b", .str "c"]
            (.ok fun b _ => if b = 0 then ApiResponse.success [[1], [2]]
              else ApiResponse.otherError "boom") 2).1.success_count = 2
        ∧ (create_embeddings_batch [.str "a", .str "b", .str "c"]
            (.ok fun b _ => if b = 0 then ApiResponse.success [[1], [2]]
              else ApiResponse.otherError "boom") 2).1.failure_count = 1)) :=
  ⟨by decide,
    c6_error_capture [PyItem.str "a"] "missing credential" 100 (by decide)⟩

/-- Claim C7: starting from a cold cache, the first `get_service_config`
call issues a database lookup and caches the parsed config with timestamp
`t0`; a second call within the 300-second TTL is served from the cache
(no database lookup, same config, cache unchanged); a call at `t2` with
`t2 - t0 >= TTL` issues a fresh lookup and re-caches with timestamp
`t2`. -/
theorem c7_config_cache_ttl
    (cache0 : String → Option (ServiceConfig × Nat))
    (db : String → Option ModelConfigRow) (service : String)
    (row : ModelConfigRow) (t0 t1 t2 : Nat)
    (hc : cache0 service = none) (hdb : db service = some row)
    (h01 : t1 - t0 < cache_ttl) (h02 : cache_ttl ≤ t2 - t0) :
    ((get_service_config cache0 db t0 service).dbCalled = true)
    ∧ ((get_service_config cache0 db t0 service).outcome
      = .ok (configOfRow row))
    ∧ ((get_service_config (get_service_config cache0 db t0 service).cache
        db t1 service).dbCalled = false)
    ∧ ((get_service_config (get_service_config cache0 db t0 service).cache
        db t1 service).outcome = .ok (configOfRow row))
    ∧ ((get_service_config (get_service_config cache0 db t0 service).cache
        db t1 service).cache
      = (get_service_config cache0 db t0 service).cache)
    ∧ ((get_service_config (get_service_config cache0 db t0 service).cache
        db t2 service).dbCalled = true)
    ∧ ((get_service_config (get_service_config cache0 db t0 service).cache
        db t2 service).cache service = some (configOfRow row, t2)) := by
  have hr1 : get_service_config cache0 db t0 service
      = { outcome := .ok (configOfRow row)
          cache := fun s =>
            if s = service then some (configOfRow row, t0) else cache0 s
          dbCalled := true } := by
    simp [get_service_config, hc, hdb]
  have hnlt : ¬ (t2 - t0 < cache_ttl) := by omega
  have hr2 : get_service_config (get_service_config cache0 db t0 service).cache
      db t1 service
      = { outcome := .ok (configOfRow row)
          cache := (get_service_config cache0 db t0 service).cache
          dbCalled := false } := by
    rw [hr1]
    simp [get_service_config, h01]
  have hr3 : get_service_config (get_service_config cache0 db t0 service).cache
      db t2 service
      = { outcome := .ok (configOfRow row)
          cache := fun s =>
            if s = service then some (configOfRow row, t2)
            else (get_service_config cache0 db t0 service).cache s
          dbCalled := true } := by
    rw [hr1]
    simp [get_service_config, hnlt, hdb]
  refine ⟨?_, ?_, ?_, ?_, ?_, ?_, ?_⟩
  · rw [hr1]
  · rw [hr1]
  · rw [hr2]
  · rw [hr2]
  · rw [hr2]
  · rw [hr3]
  · rw [hr3]
    simp

/-- Witness for `c7_config_cache_ttl` at concrete times 0, 299 and 300. -/
theorem c7_witness :
    (((fun _ => none) : String → Option (ServiceConfig × Nat)) "embeddings"
      = none)
    ∧ exampleDb "embeddings" = some exampleRow
    ∧ 299 - 0 < cache_ttl
    ∧ cache_ttl ≤ 300 - 0
    ∧ ((get_service_config (fun _ => none) exampleDb 0 "embeddings").dbCalled
        = true
      ∧ (get_service_config (fun _ => none) exampleDb 0 "embeddings").outcome
        = .ok (configOfRow exampleRow)
      ∧ (get_service_config
          (get_service_config (fun _ => none) exampleDb 0 "embeddings").cache
          exampleDb 299 "embeddings").dbCalled = false
      ∧ (get_service_config
          (get_service_config (fun _ => none) exampleDb 0 "embeddings").cache
          exampleDb 299 "embeddings").outcome = .ok (configOfRow exampleRow)
      ∧ (get_service_config
          (get_service_config (fun _ => none) exampleDb 0 "embeddings").cache
          exampleDb 299 "embeddings").cache
        = (get_service_config (fun _ => none) exampleDb 0 "embeddings").cache
      ∧ (get_service_config
          (get_service_config (fun _ => none) exampleDb 0 "embeddings").cache
          exampleDb 300 "embeddings").dbCalled = true
      ∧ (get_service_config
          (get_service_config (fun _ => none) exampleDb 0 "embeddings").cache
          exampleDb 300 "embeddings").cache "embeddings"
        = some (configOfRow exampleRow, 300)) :=
  ⟨rfl, rfl, by decide, by decide,
    c7_config_cache_ttl (fun _ => none) exampleDb "embeddings" exampleRow
      0 299 300 rfl rfl (by decide) (by decide)⟩

/-- Totals for a completed `create_embeddings_batch` run against a client
whose successful responses carry at least `bs` vectors. -/
theorem create_embeddings_batch_ok_counts (items : List PyItem)
    (client : Nat → Nat → ApiResponse) (bs : Nat) (hbs : 0 < bs)
    (hconf : ∀ b a d, client b a = ApiResponse.success d → bs ≤ d.length) :
    (create_embeddings_batch items (.ok client) bs).1.success_count
        + (create_embeddings_batch items (.ok client) bs).1.failure_count
      = items.length := by
  cases items with
  | nil => rfl
  | cons x t =>
    have hc := processTexts_counts client (validate_texts (x :: t)) bs hbs
      hconf (validate_texts (x :: t)).length 0 {} (by omega)
    have hlen := validate_texts_length (x :: t)
    simp only [create_embeddings_batch, List.isEmpty_cons, Bool.false_eq_true,
      if_false, ite_false, process_embeddings_with_client]
    rw [hc]
    show 0 + 0 + ((validate_texts (x :: t)).length - 0) = (x :: t).length
    omega

/-- Claim C1 (amended): when `create_embeddings_batch` completes, every
input item maps to exactly one outcome — `success_count + failure_count =
len(texts)` — provided each successful provider response carries at least
as many vectors as the batch size bounds the batch (the code zips batch and
response with `strict=False`, so a short response would silently drop
items); the client-acquisition-failure path preserves the same count. -/
theorem c1_every_item_one_outcome (items : List PyItem)
    (client : Nat → Nat → ApiResponse) (bs : Nat) (hbs : 0 < bs)
    (hconf : ∀ b a d, client b a = ApiResponse.success d → bs ≤ d.length) :
    ((create_embeddings_batch items (.ok client) bs).1.success_count
        + (create_embeddings_batch items (.ok client) bs).1.failure_count
      = items.length)
    ∧ ∀ msg, (create_embeddings_batch items (.error msg) bs).1.success_count
        + (create_embeddings_batch items (.error msg) bs).1.failure_count
      = items.length := by
  constructor
  · exact create_embeddings_batch_ok_counts items client bs hbs hconf
  · intro msg
    cases items with
    | nil => rfl
    | cons x t =>
      have hlen := validate_texts_length (x :: t)
      simp only [create_embeddings_batch, List.isEmpty_cons, Bool.false_eq_true,
        if_false, ite_false]
      simp only [foldl_add_failure_success_count, foldl_add_failure_failure_count]
      show 0 + (0 + (validate_texts (x :: t)).length) = (x :: t).length
      omega

/-- Claim C1 counterexample: as stated over all completed runs the claim
fails — a provider response with fewer vectors than the batch has items
(here an empty `response.data` for a one-item batch) leaves the item with
no outcome at all, so `success_count + failure_count = 0 ≠ 1`. -/
theorem c1_counterexample :
    ¬ ((create_embeddings_batch [PyItem.str "a"]
          (.ok fun _ _ => ApiResponse.success []) 100).1.success_count
        + (create_embeddings_batch [PyItem.str "a"]
          (.ok fun _ _ => ApiResponse.success []) 100).1.failure_count
      = 1) := by decide

/-- Witness for `c1_every_item_one_outcome` at a concrete conforming run. -/
theorem c1_witness :
    0 < 2
    ∧ ((create_embeddings_batch [PyItem.str "a", PyItem.str "b"]
          (.ok fun _ _ => ApiResponse.success [[1], [2]]) 2).1.success_count
        + (create_embeddings_batch [PyItem.str "a", PyItem.str "b"]
          (.ok fun _ _ => ApiResponse.success [[1], [2]]) 2).1.failure_count
      = 2) :=
  ⟨by decide,
    (c1_every_item_one_outcome [PyItem.str "a", PyItem.str "b"]
      (fun _ _ => ApiResponse.success [[1], [2]]) 2 (by decide)
      (by
        intro b a d h
        simp only [ApiResponse.success.injEq] at h
        subst h
        decide)).1⟩

theorem zip_self_map {α β : Type} (l : List α) (f : α → β) :
    l.zip (l.map f) = l.map fun x => (x, f x) := by
  induction l with
  | nil => rfl
  | cons x t ih => simp [ih]

theorem take_append_drop_drop (l : List String) (i bs : Nat) :
    (l.drop i).take bs ++ l.drop (i + bs) = l.drop i := by
  conv_rhs => rw [← List.take_append_drop bs (l.drop i)]
  congr 1
  rw [List.drop_drop, Nat.add_comm]

/-- Failure bookkeeping: the run appends exactly one `failed_items` entry
per `failure_count` increment. -/
theorem processTexts_failed_len (client : Nat → Nat → ApiResponse)
    (texts : List String) (bs : Nat) :
    ∀ fuel i acc,
      (processTexts client texts bs fuel i acc).1.failed_items.length
          + acc.failure_count
      = (processTexts client texts bs fuel i acc).1.failure_count
          + acc.failed_items.length := by
  intro fuel
  induction fuel with
  | zero =>
    intro i acc
    show acc.failed_items.length + acc.failure_count
      = acc.failure_count + acc.failed_items.length
    omega
  | succ n ih =>
    intro i acc
    by_cases hi : i < texts.length
    · rcases hpb : processBatch client (i / bs) ((texts.drop i).take bs)
        with ⟨o, evs⟩
      cases o with
      | ok pairs =>
        simp only [processTexts, hi, ite_true, if_pos, hpb]
        have := ih (i + bs) (pairs.foldl (fun r p => r.add_success p.2 p.1) acc)
        simp only [foldl_add_success_failed_items,
          foldl_add_success_failure_count] at this
        omega
      | quota =>
        simp only [processTexts, hi, ite_true, if_pos, hpb]
        simp only [foldl_add_failure_failed_items,
          foldl_add_failure_failure_count, List.length_append, List.length_map]
        omega
      | failed err =>
        simp only [processTexts, hi, ite_true, if_pos, hpb]
        have := ih (i + bs) (((texts.drop i).take bs).foldl
          (fun r t => r.add_failure t err (some (i / bs))) acc)
        simp only [foldl_add_failure_failed_items,
          foldl_add_failure_failure_count, List.length_append,
          List.length_map] at this
        omega
    · rw [processTexts_done client texts bs (n + 1) i acc (by omega)]
      show acc.failed_items.length + acc.failure_count
        = acc.failure_count + acc.failed_items.length
      omega

/-- Order invariant engine: against a provider whose successful responses
return exactly one vector (`embed t`) per batch item, the run appends to
`texts_processed` a sublist `s` of the remaining input (in original order)
and to `embeddings` exactly `s.map embed`, with `success_count` advancing
by `s.length`. -/
theorem processTexts_order (client : Nat → Nat → ApiResponse)
    (texts : List String) (bs : Nat) (hbs : 0 < bs) (embed : String → Vec)
    (hconf : ∀ b a d, client b a = ApiResponse.success d →
      d = ((texts.drop (b * bs)).take bs).map embed) :
    ∀ fuel j acc, texts.length - j * bs ≤ fuel →
      ∃ s, s.Sublist (texts.drop (j * bs))
        ∧ (processTexts client texts bs fuel (j * bs) acc).1.texts_processed
            = acc.texts_processed ++ s
        ∧ (processTexts client texts bs fuel (j * bs) acc).1.embeddings
            = acc.embeddings ++ s.map embed
        ∧ (processTexts client texts bs fuel (j * bs) acc).1.success_count
            = acc.success_count + s.length := by
  intro fuel
  induction fuel with
  | zero =>
    intro j acc h
    exact ⟨[], List.nil_sublist _, by simp [processTexts],
      by simp [processTexts], by simp [processTexts]⟩
  | succ n ih =>
    intro j acc h
    by_cases hjlt : j * bs < texts.length
    · have hdiv : j * bs / bs = j := Nat.mul_div_cancel j hbs
      have hsm : (j + 1) * bs = j * bs + bs := Nat.succ_mul j bs
      rcases hpb : processBatch client (j * bs / bs)
          ((texts.drop (j * bs)).take bs) with ⟨o, evs⟩
      cases o with
      | ok pairs =>
        obtain ⟨a, d, hcl, hpairs⟩ :=
          processBatch_ok client (j * bs / bs) ((texts.drop (j * bs)).take bs)
            pairs evs hpb
        have hd := hconf _ _ _ hcl
        rw [hdiv] at hd
        have hpz : pairs = ((texts.drop (j * bs)).take bs).map
            fun x => (x, embed x) := by
          rw [hpairs, hd, zip_self_map]
        obtain ⟨s, hsub, htp, hemb, hcnt⟩ := ih (j + 1)
          (pairs.foldl (fun r p => r.add_success p.2 p.1) acc)
          (by rw [hsm]; omega)
        rw [hsm] at hsub htp hemb hcnt
        refine ⟨(texts.drop (j * bs)).take bs ++ s, ?_, ?_, ?_, ?_⟩
        · have := List.Sublist.append
            (List.Sublist.refl ((texts.drop (j * bs)).take bs)) hsub
          rwa [take_append_drop_drop] at this
        · simp only [processTexts, hjlt, ite_true, if_pos, hpb]
          rw [htp, foldl_add_success_texts, hpz, List.map_map]
          have hfst : (Prod.fst ∘ fun x : String => (x, embed x)) = id := rfl
          rw [hfst, List.map_id, List.append_assoc]
        · simp only [processTexts, hjlt, ite_true, if_pos, hpb]
          rw [hemb, foldl_add_success_embeddings, hpz, List.map_map]
          have hsnd : (Prod.snd ∘ fun x : String => (x, embed x)) = embed := rfl
          rw [hsnd, List.map_append, List.append_assoc]
        · simp only [processTexts, hjlt, ite_true, if_pos, hpb]
          rw [hcnt, foldl_add_success_success_count, hpz]
          simp only [List.length_append, List.length_map]
          omega
      | quota =>
        refine ⟨[], List.nil_sublist _, ?_, ?_, ?_⟩ <;>
          simp [processTexts, hjlt, hpb]
      | failed err =>
        obtain ⟨s, hsub, htp, hemb, hcnt⟩ := ih (j + 1)
          (((texts.drop (j * bs)).take bs).foldl
            (fun r t => r.add_failure t err (some (j * bs / bs))) acc)
          (by rw [hsm]; omega)
        rw [hsm] at hsub htp hemb hcnt
        refine ⟨s, ?_, ?_, ?_, ?_⟩
        · refine hsub.trans ?_
          have : texts.drop (j * bs + bs) = (texts.drop (j * bs)).drop bs := by
            rw [List.drop_drop, Nat.add_comm]
          rw [this]
          exact List.drop_sublist bs (texts.drop (j * bs))
        · simp only [processTexts, hjlt, ite_true, if_pos, hpb]
          rw [htp]
          simp
        · simp only [processTexts, hjlt, ite_true, if_pos, hpb]
          rw [hemb]
          simp
        · simp only [processTexts, hjlt, ite_true, if_pos, hpb]
          rw [hcnt]
          simp
    · rw [processTexts_done client texts bs (n + 1) (j * bs) acc (by omega)]
      exact ⟨[], List.nil_sublist _, by simp, by simp, by simp⟩

/-- Claim C3: with a provider returning exactly one vector (`embed t`) per
batch item, the result's `embeddings` list is exactly the vectors of the
successful inputs in their original input order (`texts_processed` is an
order-preserving sublist of the input, and `embeddings` is its image under
`embed`); failed items contribute no entry to `embeddings` — in particular
never a zero-vector substitute — and are recorded (one `failed_items` entry
per counted failure). -/
theorem c3_embeddings_order (client : Nat → Nat → ApiResponse)
    (texts : List String) (bs : Nat) (hbs : 0 < bs) (embed : String → Vec)
    (hconf : ∀ b a d, client b a = ApiResponse.success d →
      d = ((texts.drop (b * bs)).take bs).map embed) :
    ((process_embeddings_with_client client texts bs {}).1.embeddings
      = (process_embeddings_with_client client texts bs
          {}).1.texts_processed.map embed)
    ∧ (process_embeddings_with_client client texts bs
        {}).1.texts_processed.Sublist texts
    ∧ ((process_embeddings_with_client client texts bs {}).1.embeddings.length
      = (process_embeddings_with_client client texts bs {}).1.success_count)
    ∧ ((process_embeddings_with_client client texts bs
          {}).1.failed_items.length
      = (process_embeddings_with_client client texts bs
          {}).1.failure_count) := by
  obtain ⟨s, hsub, htp, hemb, hcnt⟩ := processTexts_order client texts bs hbs
    embed hconf texts.length 0 {} (by simp)
  have hfl := processTexts_failed_len client texts bs texts.length 0 {}
  simp only [Nat.zero_mul, List.drop_zero, List.nil_append] at hsub htp hemb hcnt
  have hfl2 : (processTexts client texts bs texts.length 0 {}).1.failed_items.length
      = (processTexts client texts bs texts.length 0 {}).1.failure_count := by
    have h4 : ({} : EmbeddingBatchResult).failure_count = 0 := rfl
    have h5 : ({} : EmbeddingBatchResult).failed_items.length = 0 := rfl
    omega
  simp only [process_embeddings_with_client]
  refine ⟨?_, ?_, ?_, ?_⟩
  · rw [htp, hemb]
  · rw [htp]; exact hsub
  · rw [hemb, hcnt, List.length_map]
    omega
  · exact hfl2

/-- Witness for `c3_embeddings_order` at a concrete conforming two-batch
run. -/
theorem c3_witness :
    0 < 1
    ∧ (∀ b a d,
        (((fun b _ => ApiResponse.success
            ((((["a", "bb"] : List String).drop (b * 1)).take 1).map
              (fun t => ([(t.length : Int)] : Vec)))) :
          Nat → Nat → ApiResponse) b a) = ApiResponse.success d →
        d = (((["a", "bb"] : List String).drop (b * 1)).take 1).map
          (fun t => ([(t.length : Int)] : Vec)))
    ∧ (((process_embeddings_with_client
          (fun b _ => ApiResponse.success
            ((((["a", "bb"] : List String).drop (b * 1)).take 1).map
              (fun t => ([(t.length : Int)] : Vec))))
          ["a", "bb"] 1 {}).1.embeddings
        = (process_embeddings_with_client
            (fun b _ => ApiResponse.success
              ((((["a", "bb"] : List String).drop (b * 1)).take 1).map
                (fun t => ([(t.length : Int)] : Vec))))
            ["a", "bb"] 1 {}).1.texts_processed.map
              (fun t => ([(t.length : Int)] : Vec)))
      ∧ (process_embeddings_with_client
          (fun b _ => ApiResponse.success
            ((((["a", "bb"] : List String).drop (b * 1)).take 1).map
              (fun t => ([(t.length : Int)] : Vec))))
          ["a", "bb"] 1 {}).1.texts_processed.Sublist ["a", "bb"]
      ∧ ((process_embeddings_with_client
          (fun b _ => ApiResponse.success
            ((((["a", "bb"] : List String).drop (b * 1)).take 1).map
              (fun t => ([(t.length : Int)] : Vec))))
          ["a", "bb"] 1 {}).1.embeddings.length
        = (process_embeddings_with_client
            (fun b _ => ApiResponse.success
              ((((["a", "bb"] : List String).drop (b * 1)).take 1).map
                (fun t => ([(t.length : Int)] : Vec))))
            ["a", "bb"] 1 {}).1.success_count)
      ∧ ((process_embeddings_with_client
          (fun b _ => ApiResponse.success
            ((((["a", "bb"] : List String).drop (b * 1)).take 1).map
              (fun t => ([(t.length : Int)] : Vec))))
          ["a", "bb"] 1 {}).1.failed_items.length
        = (process_embeddings_with_client
            (fun b _ => ApiResponse.success
              ((((["a", "bb"] : List String).drop (b * 1)).take 1).map
                (fun t => ([(t.length : Int)] : Vec))))
            ["a", "bb"] 1 {}).1.failure_count)) :=
  ⟨by decide,
    by
      intro b a d h
      simp only [ApiResponse.success.injEq] at h
      exact h.symm,
    c3_embeddings_order
      (fun b _ => ApiResponse.success
        ((((["a", "bb"] : List String).drop (b * 1)).take 1).map
          (fun t => ([(t.length : Int)] : Vec))))
      ["a", "bb"] 1 (by decide) (fun t => ([(t.length : Int)] : Vec))
      (by
        intro b a d h
        simp only [ApiResponse.success.injEq] at h
        exact h.symm)⟩

/-- Claim C2: when the provider signals quota exhaustion (a rate-limit
error whose message contains the `insufficient_quota` marker) at attempt
`a0` of batch `k` — after only plain rate limits within that batch, and
with no quota signal in any earlier batch — the run records every
remaining unprocessed item from the start of batch `k` through the end of
the whole input as failed with `EmbeddingQuotaExhaustedError`, and issues
no request for any batch after `k`. -/
theorem c2_quota_short_circuit (client : Nat → Nat → ApiResponse)
    (texts : List String) (bs k : Nat) (hbs : 0 < bs)
    (hk : k * bs < texts.length)
    (hpre : ∀ b a, b < k → (client b a).isQuota = false)
    (a0 : Nat) (ha : a0 < maxRetries)
    (hpl : ∀ a, a < a0 → (client k a).isPlainRateLimit = true)
    (hq : (client k a0).isQuota = true) :
    (∃ pre, (process_embeddings_with_client client texts bs {}).1.failed_items
      = pre ++ (texts.drop (k * bs)).map
          (fun t => mkFailedItem t (.quotaExhausted "Quota exhausted") (some k)))
    ∧ ∀ e ∈ (process_embeddings_with_client client texts bs {}).2,
        e.batchLE k := by
  have hrun := processTexts_quota client texts bs k hbs hk hpre a0 ha hpl hq
    texts.length 0 {} (Nat.zero_le k) (by simp)
  simpa [process_embeddings_with_client] using hrun

/-- Witness for `c2_quota_short_circuit`: five one-item batches, quota
exhaustion on the first attempt of batch 1. -/
theorem c2_witness :
    0 < 1
    ∧ 1 * 1 < (["a", "b", "c", "d", "e"] : List String).length
    ∧ (∀ b a, b < 1 →
        (((fun b _ => if b = 0 then ApiResponse.success [[1]]
            else ApiResponse.rateLimitError "insufficient_quota") :
          Nat → Nat → ApiResponse) b a).isQuota = false)
    ∧ (((fun b _ => if b = 0 then ApiResponse.success [[1]]
          else ApiResponse.rateLimitError "insufficient_quota") :
        Nat → Nat → ApiResponse) 1 0).isQuota = true
    ∧ ((∃ pre, (process_embeddings_with_client
          (fun b _ => if b = 0 then ApiResponse.success [[1]]
            else ApiResponse.rateLimitError "insufficient_quota")
          ["a", "b", "c", "d", "e"] 1 {}).1.failed_items
        = pre ++ ((["a", "b", "c", "d", "e"] : List String).drop (1 * 1)).map
            (fun t => mkFailedItem t (.quotaExhausted "Quota exhausted") (some 1)))
      ∧ ∀ e ∈ (process_embeddings_with_client
          (fun b _ => if b = 0 then ApiResponse.success [[1]]
            else ApiResponse.rateLimitError "insufficient_quota")
          ["a", "b", "c", "d", "e"] 1 {}).2,
          e.batchLE 1) :=
  ⟨by decide, by decide,
    by
      intro b a hb
      have hb0 : b = 0 := by omega
      subst hb0
      rfl,
    by decide,
    c2_quota_short_circuit
      (fun b _ => if b = 0 then ApiResponse.success [[1]]
        else ApiResponse.rateLimitError "insufficient_quota")
      ["a", "b", "c", "d", "e"] 1 1 (by decide) (by decide)
      (by
        intro b a hb
        have hb0 : b = 0 := by omega
        subst hb0
        rfl)
      0 (by decide)
      (by intro a h; exact absurd h (Nat.not_lt_zero a))
      (by decide)⟩

example :
    (process_embeddings_with_client
      (fun b _ => if b = 0 then .success [[1], [2]]
                  else .rateLimitError "insufficient_quota: out")
      ["a", "b", "c"] 2 {}).1.failed_items.map FailedItem.errorType
    = ["EmbeddingQuotaExhaustedError"] := by decide

example :
    create_embedding_unwrap "x"
      (create_embeddings_batch [.str "x"] (.ok fun _ _ => .success [[5]]) 100).1
    = .ok [5] := by decide

example :
    create_embedding "x"
    = .err (.apiError ("Embedding error: " ++ noneTypeAttributeError)) := by
  decide

/-- Claim C8: when the resolved provider requires a secret (any provider
other than `ollama`) and no API key could be obtained, `get_client` fails
with the `API key not configured` error before any transport client is
built (the error branch constructs no `ClientHandle`); for `ollama` the
client is constructed with the fixed sentinel credential `not-needed`
regardless of whether a key exists. -/
theorem c8_client_credentials (provider : String) (k : Option String)
    (hp : provider ≠ "ollama") :
    (get_client provider none
      = .error ("API key not configured for provider: " ++ provider))
    ∧ get_client "ollama" k
      = .ok { base_url := some "http://host.docker.internal:11434/v1",
              api_key := "not-needed" } := by
  constructor
  · simp [get_client, hp]
  · cases k with
    | none => rfl
    | some s => rfl

/-- Witness for `c8_client_credentials` with the `openai` provider and a
present-but-unused key for `ollama`. -/
theorem c8_witness :
    (("openai" : String) ≠ "ollama")
    ∧ ((get_client "openai" none
        = .error ("API key not configured for provider: " ++ "openai"))
      ∧ get_client "ollama" (some "sk-test")
        = .ok { base_url := some "http://host.docker.internal:11434/v1",
                api_key := "not-needed" }) :=
  ⟨by decide, c8_client_credentials "openai" (some "sk-test") (by decide)⟩

/-- A message wrapped by the pipeline (`Failed to create embedding: ...`)
is never the generic `No embeddings returned` message. -/
theorem failed_msg_ne_generic (m : String) :
    "Failed to create embedding: " ++ m
    ≠ "No embeddings returned from batch creation" := by
  intro h
  have h2 : ("Failed to create embedding: " ++ m).data.take 1
      = ("No embeddings returned from batch creation" : String).data.take 1 := by
    rw [h]
  have h3 : (['F'] : List Char) = ['N'] := h2
  exact absurd h3 (by decide)

/-- `failed_items` always has exactly `failure_count` entries, for any
completed `create_embeddings_batch` run. -/
theorem create_embeddings_batch_failed_len (items : List PyItem)
    (setup : Except String (Nat → Nat → ApiResponse)) (bs : Nat) :
    (create_embeddings_batch items setup bs).1.failed_items.length
    = (create_embeddings_batch items setup bs).1.failure_count := by
  cases items with
  | nil => cases setup <;> rfl
  | cons x t =>
    cases setup with
    | ok client =>
      have hfl := processTexts_failed_len client (validate_texts (x :: t)) bs
        (validate_texts (x :: t)).length 0 {}
      have h4 : ({} : EmbeddingBatchResult).failure_count = 0 := rfl
      have h5 : ({} : EmbeddingBatchResult).failed_items.length = 0 := rfl
      simp only [create_embeddings_batch, List.isEmpty_cons, Bool.false_eq_true,
        if_false, ite_false, process_embeddings_with_client]
      omega
    | error msg =>
      simp only [create_embeddings_batch, List.isEmpty_cons, Bool.false_eq_true,
        if_false, ite_false, foldl_add_failure_failed_items,
        foldl_add_failure_failure_count, List.length_append, List.length_map]
      rfl

/-- The in-`try` unwrap logic of `create_embedding` (unreachable in the
source, see `c9_create_embedding_always_api_error`) would classify a
recorded failure by kind: quota exhaustion raises
`EmbeddingQuotaExhaustedError`, a retries-exhausted rate limit whose
wrapped message mentions `rate` (and not `quota`) raises
`EmbeddingRateLimitError`, any other API failure raises
`EmbeddingAPIError` wrapping the recorded message; the generic
`No embeddings returned` error only when the run recorded no failure. -/
theorem create_embedding_unwrap_kinds (text m1 m2 m3 : String)
    (h1 : hasInsufficientQuota m1 = true)
    (h2a : hasInsufficientQuota m2 = false)
    (h2b : containsSub "quota"
      (pyLower ("Failed to create embedding: " ++ m2)) = false)
    (h2c : containsSub "rate"
      (pyLower ("Failed to create embedding: " ++ m2)) = true)
    (h3a : containsSub "quota"
      (pyLower ("Failed to create embedding: " ++ m3)) = false)
    (h3b : containsSub "rate"
      (pyLower ("Failed to create embedding: " ++ m3)) = false) :
    (create_embedding_unwrap text (create_embeddings_batch [.str text]
        (.ok fun _ _ => ApiResponse.rateLimitError m1) 100).1
      = .err (.quotaExhausted ("OpenAI quota exhausted: " ++ "Quota exhausted")))
    ∧ (create_embedding_unwrap text (create_embeddings_batch [.str text]
        (.ok fun _ _ => ApiResponse.rateLimitError m2) 100).1
      = .err (.rateLimited ("Rate limit hit: "
          ++ ("Failed to create embedding: " ++ m2))))
    ∧ (create_embedding_unwrap text (create_embeddings_batch [.str text]
        (.ok fun _ _ => ApiResponse.otherError m3) 100).1
      = .err (.apiError ("Failed to create embedding: "
          ++ ("Failed to create embedding: " ++ m3))))
    ∧ (∀ setup bs,
        create_embedding_unwrap text (create_embeddings_batch [.str text]
            setup bs).1
          = .err (.apiError "No embeddings returned from batch creation") →
        (create_embeddings_batch [.str text] setup bs).1.failed_items = []) := by
  have hqq : containsSub "quota" (pyLower "Quota exhausted") = true := by decide
  refine ⟨?_, ?_, ?_, ?_⟩
  · simp [create_embedding_unwrap, create_embeddings_batch, validate_texts, coerceItem,
      process_embeddings_with_client, processTexts, processBatch, processBatchGo,
      maxRetries, EmbeddingBatchResult.add_failure, mkFailedItem,
      EmbError.message, h1, hqq]
  · have hpb2 := processBatch_three_rate_limits
      (fun _ _ => ApiResponse.rateLimitError m2) 0 [text] m2 m2 m2
      rfl h2a rfl h2a rfl h2a
    simp [create_embedding_unwrap, create_embeddings_batch, validate_texts, coerceItem,
      process_embeddings_with_client, processTexts, hpb2,
      EmbeddingBatchResult.add_failure, mkFailedItem,
      EmbError.message, h2b, h2c]
  · simp [create_embedding_unwrap, create_embeddings_batch, validate_texts, coerceItem,
      process_embeddings_with_client, processTexts, processBatch, processBatchGo,
      maxRetries, EmbeddingBatchResult.add_failure, mkFailedItem,
      EmbError.message, h3a, h3b]
  · intro setup bs h
    have hlen := create_embeddings_batch_failed_len [.str text] setup bs
    simp only [create_embedding_unwrap] at h
    rcases hres : (create_embeddings_batch [.str text] setup bs).1.embeddings
      with _ | ⟨v, vs⟩
    · rw [hres] at h
      by_cases hfc :
          0 < (create_embeddings_batch [.str text] setup bs).1.failure_count
      · rw [if_pos hfc] at h
        rcases hfi : (create_embeddings_batch [.str text] setup bs).1.failed_items
          with _ | ⟨info, rest⟩
        · rfl
        · rw [hfi] at h
          have h2 : (if containsSub "quota" (pyLower info.error) = true then
                EmbedOutcome.err
                  (.quotaExhausted ("OpenAI quota exhausted: " ++ info.error))
              else if containsSub "rate" (pyLower info.error) = true then
                EmbedOutcome.err
                  (.rateLimited ("Rate limit hit: " ++ info.error))
              else EmbedOutcome.err
                (.apiError ("Failed to create embedding: " ++ info.error)))
              = EmbedOutcome.err
                  (.apiError "No embeddings returned from batch creation") := h
          split_ifs at h2 with hc1 hc2
          · simp at h2
          · simp at h2
          · simp only [EmbedOutcome.err.injEq, EmbError.apiError.injEq] at h2
            exact absurd h2 (failed_msg_ne_generic info.error)
      · rw [if_neg hfc] at h
        have : (create_embeddings_batch [.str text] setup bs).1.failure_count
            = 0 := by omega
        rw [this] at hlen
        exact List.length_eq_zero.mp hlen
    · rw [hres] at h
      simp at h

/-- Claim C9 (code bug): `create_embedding` never reaches its
classification logic.  Its batch call leaves `provider_manager=None` with
`use_new_provider_manager=True`, so `create_embeddings_batch` skips both
client branches and returns `None` for the non-empty single-item list;
the `result.embeddings` access then raises `AttributeError`, and the
outer handler converts every call — whatever the underlying failure —
into the same `EmbeddingAPIError("Embedding error: NoneType ...")`,
never a quota-exhausted or rate-limited kind.
`create_embedding_unwrap_kinds` shows the in-`try` logic would classify
correctly if it were reachable. -/
theorem c9_create_embedding_always_api_error (text : String) :
    create_embeddings_batch_default [PyItem.str text] = none
    ∧ create_embedding text
      = .err (.apiError ("Embedding error: " ++ noneTypeAttributeError))
    ∧ ∀ m, create_embedding text ≠ .err (.quotaExhausted m)
      ∧ create_embedding text ≠ .err (.rateLimited m) := by
  have h2 : create_embedding text
      = .err (.apiError ("Embedding error: " ++ noneTypeAttributeError)) := by
    rfl
  refine ⟨rfl, h2, ?_⟩
  intro m
  rw [h2]
  constructor <;> simp


/-- Claim C10: `create_embeddings_batch` accepts input lists containing
non-string items: before any processing the validation loop coerces every
non-string item with `str()` (keeping actual strings unchanged), replaces
an item whose coercion raises by the empty string, preserves the item
count, and the one-outcome-per-item accounting covers the coerced items
like any other. -/
theorem c10_input_validation (items : List PyItem)
    (client : Nat → Nat → ApiResponse) (bs : Nat) (hbs : 0 < bs)
    (hconf : ∀ b a d, client b a = ApiResponse.success d → bs ≤ d.length) :
    (validate_texts items = items.map coerceItem)
    ∧ (∀ s, coerceItem (.str s) = s)
    ∧ (∀ s, coerceItem (.nonStr (some s)) = s)
    ∧ coerceItem (.nonStr none) = ""
    ∧ (validate_texts items).length = items.length
    ∧ ((create_embeddings_batch items (.ok client) bs).1.success_count
        + (create_embeddings_batch items (.ok client) bs).1.failure_count
      = items.length) :=
  ⟨validate_texts_eq_map items, fun _ => rfl, fun _ => rfl, rfl,
    validate_texts_length items,
    create_embeddings_batch_ok_counts items client bs hbs hconf⟩

/-- Witness for `c10_input_validation` on a mixed input containing a
coercible and a non-coercible non-string item. -/
theorem c10_witness :
    0 < 3
    ∧ ((validate_texts [.str "a", .nonStr (some "42"), .nonStr none]
        = ([.str "a", .nonStr (some "42"), .nonStr none] : List PyItem).map
            coerceItem)
      ∧ (∀ s, coerceItem (.str s) = s)
      ∧ (∀ s, coerceItem (.nonStr (some s)) = s)
      ∧ coerceItem (.nonStr none) = ""
      ∧ (validate_texts [.str "a", .nonStr (some "42"), .nonStr none]).length
        = ([.str "a", .nonStr (some "42"), .nonStr none] : List PyItem).length
      ∧ ((create_embeddings_batch [.str "a", .nonStr (some "42"), .nonStr none]
          (.ok fun _ _ => ApiResponse.success [[1], [2], [3]])
          3).1.success_count
        + (create_embeddings_batch [.str "a", .nonStr (some "42"), .nonStr none]
            (.ok fun _ _ => ApiResponse.success [[1], [2], [3]])
            3).1.failure_count
        = ([.str "a", .nonStr (some "42"), .nonStr none] : List PyItem).length)) :=
  ⟨by decide,
    c10_input_validation [.str "a", .nonStr (some "42"), .nonStr none]
      (fun _ _ => ApiResponse.success [[1], [2], [3]]) 3 (by decide)
      (by
        intro b a d h
        simp only [ApiResponse.success.injEq] at h
        subst h
        decide)⟩
